import Mathlib

/-! go-newznab: the usenet-crawler client and the newznab feed schema.

A shallow embedding of `src/usenetcrawler.go` and `src/newznab/structs.go`.

* Go `string` is `String`; the byte-level scanners of the Go standard library
  (`strconv.ParseInt`, `time.Parse`, `time.Time.Format`, `fmt.Sprintf`) work on
  the character list `String.data`. They accept ASCII only at every position
  they read, so reading characters instead of bytes accepts the same texts.
* The functions of the Go standard library that the program calls are embedded
  from the library's sources (as of Go 1.22): `strconv.ParseInt`, `time.Parse` and
  `Time.Format` for the one layout the program uses, `time.RFC1123Z`,
  `time.Date`, `Time.Add`, `Time.UTC`, and `fmt.Sprintf` for the verbs of the
  program's formats.
* Go `int`, `int64` are `Int`; `uint64` arithmetic is `Nat` with an explicit
  `% 2 ^ 64` where it can wrap, and conversions between `uint64` and `int64`
  are `toUint64` and `toInt64`.
* A Go function returning `(T, error)` returns `T × Option GoError`, the
  `error` being `none` for `nil`; a nil slice is `[]`.
* A method with a pointer receiver returns the updated receiver.
* The network and `xml.Unmarshal` of a whole envelope are parameters
  (`Extern`): functions that can fail.
* Logging (`logrus`) and the JSON rendering that is only logged have no effect
  on any returned value and are left out.
-/

namespace Go

/-- The field `Err` of a `*strconv.NumError`. -/
inductive NumErr where
  | ErrSyntax
  | ErrRange
  | invalidBase (base : Int)
  | invalidBitSize (bitSize : Int)
  deriving DecidableEq, Repr

/-- The error values that reach this program: `*strconv.NumError`,
`*time.ParseError`, and the errors of the transport and of `encoding/xml`,
which are kept uninterpreted. -/
inductive GoError where
  | NumError (Func Num : String) (Err : NumErr)
  | ParseError (Layout Value : String)
  | other (msg : String)
  deriving DecidableEq, Repr

/-! ## strconv.ParseInt -/

namespace strconv

/-- The helper `lower(c)` of strconv: `c | ('x' - 'X')`. -/
def lower (c : Nat) : Nat := c ||| 0x20

def maxUint64 : Nat := 2 ^ 64 - 1

/-- The outcome of the digit loop of `ParseUint`. -/
inductive LoopResult where
  | done (n : Nat) (underscores : Bool)
  | syntaxError
  | rangeError
  deriving DecidableEq, Repr

/-- The digit loop of `ParseUint`: `for _, c := range []byte(s)`. -/
def parseUintLoop (base : Nat) (base0 : Bool) (cutoff maxVal : Nat) :
    List Char → Nat → Bool → LoopResult
  | [], n, underscores => .done n underscores
  | ch :: rest, n, underscores =>
    let c := ch.toNat
    if c = '_'.toNat ∧ base0 = true then
      parseUintLoop base base0 cutoff maxVal rest n true
    else
      let digit : Option Nat :=
        if '0'.toNat ≤ c ∧ c ≤ '9'.toNat then some (c - '0'.toNat)
        else if 'a'.toNat ≤ lower c ∧ lower c ≤ 'z'.toNat then some (lower c - 'a'.toNat + 10)
        else none
      match digit with
      | none => .syntaxError
      | some d =>
        if d ≥ base then .syntaxError
        else if n ≥ cutoff then .rangeError
        else
          let n0 := n * base
          let n1 := (n0 + d) % 2 ^ 64
          if n1 < n0 ∨ n1 > maxVal then .rangeError
          else parseUintLoop base base0 cutoff maxVal rest n1 underscores

/-- The scan of `underscoreOK` over the number proper; `saw` is the last
character class seen (`'^'`, `'0'`, `'_'` or `'!'`). -/
def underscoreScan (hex : Bool) : List Char → Char → Bool
  | [], saw => saw ≠ '_'
  | ch :: rest, saw =>
    let c := ch.toNat
    if ('0'.toNat ≤ c ∧ c ≤ '9'.toNat) ∨
        (hex = true ∧ 'a'.toNat ≤ lower c ∧ lower c ≤ 'f'.toNat) then
      underscoreScan hex rest '0'
    else if ch = '_' then
      if saw ≠ '0' then false else underscoreScan hex rest '_'
    else if saw = '_' then false
    else underscoreScan hex rest '!'

/-- Go `underscoreOK`: underscores only separate digits, and only after a
base prefix. -/
def underscoreOK (s : List Char) : Bool :=
  let s := match s with
    | c :: rest => if c = '-' ∨ c = '+' then rest else s
    | [] => s
  match s with
  | c0 :: c1 :: rest =>
    if c0 = '0' ∧ (lower c1.toNat = 'b'.toNat ∨ lower c1.toNat = 'o'.toNat ∨
        lower c1.toNat = 'x'.toNat) then
      underscoreScan (decide (lower c1.toNat = 'x'.toNat)) rest '0'
    else underscoreScan false s '^'
  | _ => underscoreScan false s '^'

/-- The base and the digits that `ParseUint` settles on: the given base from
2 to 36, or for base 0 the base of the prefix (`0b`, `0o`, `0x`, `0`) and the
text after it; `none` for an invalid base. -/
def baseOf (s : List Char) (base : Int) : Option (Nat × List Char) :=
  if 2 ≤ base ∧ base ≤ 36 then some (base.toNat, s)
  else if base = 0 then
    match s with
    | c0 :: c1 :: c2 :: more =>
      if c0 = '0' then
        if lower c1.toNat = 'b'.toNat then some (2, c2 :: more)
        else if lower c1.toNat = 'o'.toNat then some (8, c2 :: more)
        else if lower c1.toNat = 'x'.toNat then some (16, c2 :: more)
        else some (8, c1 :: c2 :: more)
      else some (10, s)
    | c0 :: tl => if c0 = '0' then some (8, tl) else some (10, s)
    | [] => some (10, s)
  else none

/-- Go `strconv.ParseUint(s, base, bitSize)`, `int` being 64 bits wide: the
value and the field `Err` of the error. -/
def ParseUint (s : List Char) (base bitSize : Int) : Nat × Option NumErr :=
  if s = [] then (0, some .ErrSyntax)
  else
    match baseOf s base with
    | none => (0, some (.invalidBase base))
    | some (b, digits) =>
      if bitSize < 0 ∨ bitSize > 64 then (0, some (.invalidBitSize bitSize))
      else
        let bits : Nat := if bitSize = 0 then 64 else bitSize.toNat
        let cutoff := maxUint64 / b + 1
        let maxVal := 2 ^ bits - 1
        match parseUintLoop b (decide (base = 0)) cutoff maxVal digits 0 false with
        | .syntaxError => (0, some .ErrSyntax)
        | .rangeError => (maxVal, some .ErrRange)
        | .done n underscores =>
          if underscores = true ∧ underscoreOK s = false then (0, some .ErrSyntax)
          else (n, none)

/-- The end of `ParseInt`, after `ParseUint` gave `un` without an error other
than `ErrRange`: the check of the range of the signed value. -/
def signedOf (s0 : String) (neg : Bool) (un : Nat) (bitSize : Int) : Int × Option GoError :=
  let bits : Nat := if bitSize = 0 then 64 else bitSize.toNat
  let cutoff : Nat := 2 ^ (bits - 1)
  if neg = false ∧ un ≥ cutoff then
    (Int.ofNat (cutoff - 1), some (.NumError "ParseInt" s0 .ErrRange))
  else if neg = true ∧ un > cutoff then
    (-Int.ofNat cutoff, some (.NumError "ParseInt" s0 .ErrRange))
  else
    let n : Int := Int.ofNat un
    (if neg then -n else n, none)

/-- Go `strconv.ParseInt(s, base, bitSize)`, `int` being 64 bits wide. -/
def ParseInt (s0 : String) (base bitSize : Int) : Int × Option GoError :=
  match s0.data with
  | [] => (0, some (.NumError "ParseInt" s0 .ErrSyntax))
  | c0 :: tl =>
    let (neg, s) : Bool × List Char :=
      if c0 = '+' then (false, tl)
      else if c0 = '-' then (true, tl)
      else (false, c0 :: tl)
    match ParseUint s base bitSize with
    | (un, none) => signedOf s0 neg un bitSize
    | (un, some .ErrRange) => signedOf s0 neg un bitSize
    | (_, some err) => (0, some (.NumError "ParseInt" s0 err))

end strconv

/-! ## time: the calendar, `Format` and `Parse` for the layout `RFC1123Z` -/

namespace time

/-- Go `time.Time` as what its methods observe: the instant (seconds since the
Unix epoch and nanoseconds within the second) and the offset east of UTC, in
seconds, that its location has at that instant. The monotonic clock reading
is not modelled. -/
structure Time where
  sec : Int
  nsec : Fin 1000000000
  offset : Int
  deriving DecidableEq, Repr

/-- The zero value `time.Time{}`: January 1, year 1, 00:00:00 UTC. -/
def Time.zero : Time := ⟨-62135596800, 0, 0⟩

instance : Inhabited Time := ⟨Time.zero⟩

/-- Go `Time.UTC`: the same instant with the location set to UTC. -/
def Time.UTC (t : Time) : Time := { t with offset := 0 }

/-- Go `Time.Add(d)`, `d` a `Duration` in nanoseconds (quotient and remainder
truncate toward zero, as in Go); the saturation of the seconds at the ends of
`int64` is not modelled. -/
def Time.Add (t : Time) (d : Int) : Time :=
  let dsec := Int.tdiv d 1000000000
  let nsec : Int := (t.nsec.val : Int) + Int.tmod d 1000000000
  let (dsec, nsec) : Int × Int :=
    if nsec ≥ 1000000000 then (dsec + 1, nsec - 1000000000)
    else if nsec < 0 then (dsec - 1, nsec + 1000000000)
    else (dsec, nsec)
  { t with sec := t.sec + dsec,
           nsec := ⟨nsec.toNat % 1000000000, Nat.mod_lt _ (by decide)⟩ }

def secondsPerDay : Nat := 86400
def daysPer400Years : Nat := 365 * 400 + 97
def daysPer100Years : Nat := 365 * 100 + 24
def daysPer4Years : Nat := 365 * 4 + 1
def absoluteZeroYear : Int := -292277022399
/-- The constant `unixToInternal + internalToAbsolute`. -/
def unixToAbsolute : Int := 9223372028715321600

/-- Conversion of an integer to `uint64`. -/
def toUint64 (x : Int) : Nat := (x % 2 ^ 64).toNat

/-- Conversion of an integer to `int64` (two's complement wrap-around). -/
def toInt64 (x : Int) : Int := (x + 2 ^ 63) % 2 ^ 64 - 2 ^ 63

/-- Go `Time.abs`: seconds since the absolute zero year, in the time's
location. -/
def Time.abs (t : Time) : Nat := toUint64 (t.sec + t.offset + unixToAbsolute)

def isLeap (year : Int) : Bool :=
  decide (year % 4 = 0 ∧ (year % 100 ≠ 0 ∨ year % 400 = 0))

/-- The table `daysBefore`: days in a non-leap year before month `m + 1`. -/
def daysBefore : List Nat := [0, 31, 59, 90, 120, 151, 181, 212, 243, 273, 304, 334, 365]

/-- Go `absDate(abs, false)`, the part of `absDate` before `if !full`: the year
and the day of the year, from 0. -/
def absYearDay (abs : Nat) : Int × Nat :=
  let d := abs / secondsPerDay
  let n := d / daysPer400Years
  let y := 400 * n
  let d := d - daysPer400Years * n
  let n := d / daysPer100Years
  let n := n - n / 4
  let y := y + 100 * n
  let d := d - daysPer100Years * n
  let n := d / daysPer4Years
  let y := y + 4 * n
  let d := d - daysPer4Years * n
  let n := d / 365
  let n := n - n / 4
  let y := y + n
  let d := d - 365 * n
  (toInt64 ((y : Int) + absoluteZeroYear), d)

/-- The rest of `absDate(abs, true)`: month (1..12) and day of the month from
the year and the day of the year. -/
def monthDay (year : Int) (yday : Nat) : Nat × Nat :=
  if isLeap year = true ∧ yday = 31 + 29 - 1 then (2, 29)
  else
    let day := if isLeap year = true ∧ yday > 31 + 29 - 1 then yday - 1 else yday
    let month := day / 31
    let e := daysBefore.getD (month + 1) 0
    let (month, begin) : Nat × Nat :=
      if day ≥ e then (month + 1, e) else (month, daysBefore.getD month 0)
    (month + 1, day - begin + 1)

/-- Go `absDate(abs, true)`: year, month (1..12), day of month, day of year. -/
def absDate (abs : Nat) : Int × Nat × Nat × Nat :=
  let (year, yday) := absYearDay abs
  let (month, day) := monthDay year yday
  (year, month, day, yday)

/-- Go `absClock`: hour, minute, second within the day. -/
def absClock (abs : Nat) : Nat × Nat × Nat :=
  let sec := abs % secondsPerDay
  let hour := sec / 3600
  let sec := sec - hour * 3600
  let min := sec / 60
  let sec := sec - min * 60
  (hour, min, sec)

/-- Go `absWeekday`: 0 is Sunday. -/
def absWeekday (abs : Nat) : Nat :=
  let sec := ((abs + 1 * secondsPerDay) % 2 ^ 64) % (7 * secondsPerDay)
  sec / secondsPerDay

/-- Go `daysIn(m, year)`. -/
def daysIn (m : Nat) (year : Int) : Nat :=
  if m = 2 ∧ isLeap year = true then 29
  else daysBefore.getD m 0 - daysBefore.getD (m - 1) 0

/-- Go `norm(hi, lo, base)`. -/
def norm (hi lo base : Int) : Int × Int :=
  let (hi, lo) : Int × Int :=
    if lo < 0 then
      let n := Int.tdiv (-lo - 1) base + 1
      (hi - n, lo + n * base)
    else (hi, lo)
  if lo ≥ base then
    let n := Int.tdiv lo base
    (hi + n, lo - n * base)
  else (hi, lo)

/-- Go `daysSinceEpoch(year)`. -/
def daysSinceEpoch (year : Int) : Nat :=
  let y := toUint64 (year - absoluteZeroYear)
  let n := y / 400
  let y := y - 400 * n
  let d := daysPer400Years * n
  let n := y / 100
  let y := y - 100 * n
  let d := d + daysPer100Years * n
  let n := y / 4
  let y := y - 4 * n
  let d := d + daysPer4Years * n
  let n := y
  d + 365 * n

/-- Go `time.Date(year, month, day, hour, min, sec, nsec, loc)` for a location
with the fixed offset `offset`. -/
def Date (year month day hour min sec nsec offset : Int) : Time :=
  let m := month - 1
  let (year, m) := norm year m 12
  let month := m + 1
  let (sec, nsec) := norm sec nsec 1000000000
  let (min, sec) := norm min sec 60
  let (hour, min) := norm hour min 60
  let (day, hour) := norm day hour 24
  let d : Int := daysSinceEpoch year
  let d := d + (daysBefore.getD (month - 1).toNat 0 : Nat)
  let d := if isLeap year = true ∧ month ≥ 3 then d + 1 else d
  let d := toUint64 (d + (day - 1))
  let abs : Nat := (d * secondsPerDay) % 2 ^ 64
  let abs : Nat := toUint64 ((abs : Int) + (hour * 3600 + min * 60 + sec))
  let unix := toInt64 (toInt64 abs - unixToAbsolute)
  let unix := toInt64 (unix - offset)
  ⟨unix, ⟨nsec.toNat % 1000000000, Nat.mod_lt _ (by decide)⟩, offset⟩

/-- The layout constant `time.RFC1123Z`. -/
def RFC1123Z : String := "Mon, 02 Jan 2006 15:04:05 -0700"

def longDayNames : List String :=
  ["Sunday", "Monday", "Tuesday", "Wednesday", "Thursday", "Friday", "Saturday"]

def shortDayNames : List String := ["Sun", "Mon", "Tue", "Wed", "Thu", "Fri", "Sat"]

def longMonthNames : List String :=
  ["January", "February", "March", "April", "May", "June", "July", "August",
   "September", "October", "November", "December"]

def shortMonthNames : List String :=
  ["Jan", "Feb", "Mar", "Apr", "May", "Jun", "Jul", "Aug", "Sep", "Oct", "Nov", "Dec"]

/-- The decimal digit `d < 10` as a character. -/
def digit (d : Nat) : Char := Char.ofNat ('0'.toNat + d)

/-- Go `appendInt(b, x, width)`: `x` in decimal, zero-padded to `width`. -/
def appendInt (b : List Char) (x : Int) (width : Nat) : List Char :=
  let b := if x < 0 then b ++ ['-'] else b
  let u := x.natAbs
  if width = 2 ∧ u < 100 then b ++ [digit (u / 10), digit (u % 10)]
  else if width = 4 ∧ u < 10000 then
    b ++ [digit (u / 100 / 10), digit (u / 100 % 10), digit (u % 100 / 10), digit (u % 100 % 10)]
  else
    let ds := Nat.toDigits 10 u
    b ++ List.replicate (width - ds.length) '0' ++ ds

/-- Go `Time.Format(time.RFC1123Z)`, the elements of the layout in turn:
`Mon`, `02`, `Jan`, `2006`, `15`, `04`, `05`, `-0700`. -/
def formatRFC1123Z (t : Time) : List Char :=
  let abs := t.abs
  let (year, month, day, _) := absDate abs
  let (hour, min, sec) := absClock abs
  let b : List Char := []
  let b := b ++ ((longDayNames.getD (absWeekday abs) "").data.take 3)
  let b := b ++ [',', ' ']
  let b := appendInt b day 2
  let b := b ++ [' ']
  let b := b ++ ((longMonthNames.getD (month - 1) "").data.take 3)
  let b := b ++ [' ']
  let b := appendInt b year 4
  let b := b ++ [' ']
  let b := appendInt b hour 2
  let b := b ++ [':']
  let b := appendInt b min 2
  let b := b ++ [':']
  let b := appendInt b sec 2
  let b := b ++ [' ']
  let zone : Int := Int.tdiv t.offset 60
  let (b, zone) : List Char × Int := if zone < 0 then (b ++ ['-'], -zone) else (b ++ ['+'], zone)
  let b := appendInt b (Int.tdiv zone 60) 2
  appendInt b (Int.tmod zone 60) 2

def Time.Format (t : Time) : String := ⟨formatRFC1123Z t⟩

/-- Go `match(s1, s2)`: equality of two strings of the same length up to
ASCII letter case. -/
def matchFold : List Char → List Char → Bool
  | c1 :: s1, c2 :: s2 =>
    if c1 = c2 then matchFold s1 s2
    else
      let l1 := c1.toNat ||| 0x20
      let l2 := c2.toNat ||| 0x20
      if l1 ≠ l2 ∨ l1 < 'a'.toNat ∨ l1 > 'z'.toNat then false else matchFold s1 s2
  | _, _ => true

/-- Go `lookup(tab, val)`: the index of the first name of `tab` that `val`
starts with, and the rest of `val`. -/
def lookup : List String → Nat → List Char → Option (Nat × List Char)
  | [], _, _ => none
  | v :: tab, i, val =>
    if val.length ≥ v.data.length ∧ matchFold (val.take v.data.length) v.data = true then
      some (i, val.drop v.data.length)
    else lookup tab (i + 1) val

def isDigitChar (c : Char) : Bool := decide ('0'.toNat ≤ c.toNat ∧ c.toNat ≤ '9'.toNat)

/-- Go `getnum(s, fixed)`: a one- or two-digit number, two digits when
`fixed`. -/
def getnum (s : List Char) (fixed : Bool) : Option (Nat × List Char) :=
  match s with
  | c0 :: c1 :: rest =>
    if isDigitChar c0 = false then none
    else if isDigitChar c1 = false then
      if fixed then none else some (c0.toNat - '0'.toNat, c1 :: rest)
    else some ((c0.toNat - '0'.toNat) * 10 + (c1.toNat - '0'.toNat), rest)
  | [c0] =>
    if isDigitChar c0 = false then none
    else if fixed then none else some (c0.toNat - '0'.toNat, [])
  | [] => none

/-- Go `leadingInt(s)`: the leading decimal digits of `s`, `none` on
overflow past `1 << 63`. -/
def leadingInt : List Char → Nat → Option (Nat × List Char)
  | [], x => some (x, [])
  | c :: rest, x =>
    if isDigitChar c = false then some (x, c :: rest)
    else if x > 2 ^ 63 / 10 then none
    else
      let x1 := (x * 10 + c.toNat - '0'.toNat) % 2 ^ 64
      if x1 > 2 ^ 63 then none else leadingInt rest x1

/-- Go `atoi(s)` of package time. -/
def atoi (s : List Char) : Option Int :=
  let (neg, s) : Bool × List Char :=
    match s with
    | c :: rest => if c = '-' ∨ c = '+' then (decide (c = '-'), rest) else (false, s)
    | [] => (false, s)
  match leadingInt s 0 with
  | some (q, []) => some (if neg then -(toInt64 q) else toInt64 q)
  | _ => none

/-- Go `cutspace(s)`. -/
def cutspace : List Char → List Char
  | c :: rest => if c = ' ' then cutspace rest else c :: rest
  | [] => []

/-- Go `skip(value, prefix)`: a run of spaces of the layout stands for any
run of spaces of the value, also the empty one at its end; `cut` tells that
the run of spaces of `pfx` being read was already matched. -/
def skip : List Char → List Char → Bool → Option (List Char)
  | value, [], _ => some value
  | value, p :: pfx, cut =>
    if p = ' ' then
      if cut then skip value pfx true
      else
        match value with
        | v :: _ => if v ≠ ' ' then none else skip (cutspace value) pfx true
        | [] => skip [] pfx true
    else
      match value with
      | v :: rest => if v = p then skip rest pfx false else none
      | [] => none

/-- Go `parseNanoseconds(value, nbytes)` where `value` starts with a comma or
a period and `nbytes - 1` digits follow it. -/
def parseNanoseconds (value : List Char) (nbytes : Nat) : Option Int :=
  let (value, nbytes) := if nbytes > 10 then (value.take 10, 10) else (value, nbytes)
  match atoi ((value.drop 1).take (nbytes - 1)) with
  | none => none
  | some ns => if ns < 0 then none else some (ns * 10 ^ (10 - nbytes))

/-- The fractional second that `Parse` accepts after the seconds when the
layout has none: a comma or a period followed by digits. -/
def parseFraction (value : List Char) : Option (Int × List Char) :=
  match value with
  | c0 :: c1 :: rest =>
    if (c0 = '.' ∨ c0 = ',') ∧ isDigitChar c1 = true then
      let n := 2 + (rest.takeWhile isDigitChar).length
      match parseNanoseconds value n with
      | none => none
      | some ns => some (ns, value.drop n)
    else some (0, value)
  | _ => some (0, value)

/-- The element `-0700` of the layout: sign, two digits of hours, two of
minutes; the offset in seconds. -/
def parseNumTZ (value : List Char) : Option (Int × List Char) :=
  match value with
  | sign :: h0 :: h1 :: m0 :: m1 :: rest =>
    match getnum [h0, h1] true, getnum [m0, m1] true with
    | some (hr, _), some (mm, _) =>
      if hr > 24 ∨ mm > 60 then none
      else
        let zoneOffset : Int := (hr * 60 + mm) * 60
        if sign = '+' then some (zoneOffset, rest)
        else if sign = '-' then some (-zoneOffset, rest)
        else none
    | _, _ => none
  | _ => none

/-- The guard of a range check of `Parse`: the value goes on when the
check `ok` passes. -/
def inRange {α : Type} (ok : Bool) (x : α) : Option α := if ok then some x else none

/-- The element `2006` of the layout: four characters, the first a digit,
all read by `atoi`. -/
def parseLongYear (value : List Char) : Option (Int × List Char) :=
  match value with
  | c0 :: _ :: _ :: _ :: _ =>
    if isDigitChar c0 = true then (atoi (value.take 4)).map (fun y => (y, value.drop 4))
    else none
  | _ => none

/-- The date part of `time.Parse(time.RFC1123Z, value)`: the elements `Mon`,
`02`, `Jan`, `2006` and the text between them; the weekday is read and
dropped. Gives day, month (1..12), year and the rest of the value. -/
def parseDatePart (value : List Char) : Option ((Nat × Nat × Int) × List Char) :=
  (lookup shortDayNames 0 value).bind fun r0 =>
  (skip r0.2 [',', ' '] false).bind fun v1 =>
  (getnum v1 true).bind fun r2 =>
  (skip r2.2 [' '] false).bind fun v3 =>
  (lookup shortMonthNames 0 v3).bind fun r4 =>
  (skip r4.2 [' '] false).bind fun v5 =>
  (parseLongYear v5).bind fun r6 =>
  some ((r2.1, r4.1 + 1, r6.1), r6.2)

/-- The clock part: the elements `15`, `04`, `05` with their range checks,
and a fractional second if the value has one. Gives hour, minute, second,
nanoseconds and the rest of the value. -/
def parseClockPart (value : List Char) : Option ((Nat × Nat × Nat × Int) × List Char) :=
  (getnum value false).bind fun r0 =>
  (inRange (decide (r0.1 < 24)) r0).bind fun r0 =>
  (skip r0.2 [':'] false).bind fun v1 =>
  (getnum v1 true).bind fun r2 =>
  (inRange (decide (r2.1 < 60)) r2).bind fun r2 =>
  (skip r2.2 [':'] false).bind fun v3 =>
  (getnum v3 true).bind fun r4 =>
  (inRange (decide (r4.1 < 60)) r4).bind fun r4 =>
  (parseFraction r4.2).bind fun r5 =>
  some ((r0.1, r2.1, r4.1, r5.1), r5.2)

/-- Go `time.Parse(time.RFC1123Z, value)`, the elements of the layout in
turn; `none` stands for the `*ParseError`. After the last element no text may
remain, and the day must exist in its month. -/
def parseRFC1123Z (value : List Char) : Option Time :=
  (parseDatePart value).bind fun d =>
  (skip d.2 [' '] false).bind fun v1 =>
  (parseClockPart v1).bind fun c =>
  (skip c.2 [' '] false).bind fun v2 =>
  (parseNumTZ v2).bind fun z =>
  (inRange (decide (z.2 = [])) z).bind fun z =>
  (inRange (decide (1 ≤ d.1.1 ∧ d.1.1 ≤ daysIn d.1.2.1 d.1.2.2)) d).bind fun d =>
  some (Date d.1.2.2 d.1.2.1 d.1.1 c.1.1 c.1.2.1 c.1.2.2.1 c.1.2.2.2 z.1)

/-- Go `time.Parse(time.RFC1123Z, value)` as the pair `(Time, error)`. -/
def Parse (value : String) : Time × Option GoError :=
  match parseRFC1123Z value.data with
  | some t => (t, none)
  | none => (Time.zero, some (.ParseError RFC1123Z value))

/-- The text of the layout `RFC1123Z` for weekday `wd` (0 is Sunday), day
`day`, month `month` (1..12), year `year`, clock time `h:m:s` and offset zero,
as a character list: `Mon, 02 Jan 2006 15:04:05 +0000`. -/
def textRFC1123Z (wd day month year h m s : Nat) : List Char :=
  (shortDayNames.getD wd "").data ++
    (',' :: ' ' :: digit (day / 10) :: digit (day % 10) :: ' ' ::
      ((shortMonthNames.getD (month - 1) "").data ++
        (' ' :: digit (year / 100 / 10) :: digit (year / 100 % 10) :: digit (year % 100 / 10) ::
          digit (year % 100 % 10) :: ' ' :: digit (h / 10) :: digit (h % 10) :: ':' ::
          digit (m / 10) :: digit (m % 10) :: ':' :: digit (s / 10) :: digit (s % 10) ::
          [' ', '+', '0', '0', '0', '0'])))

end time

/-! ## fmt.Sprintf -/

namespace fmt

/-- An operand of `Sprintf`: an `int` or a `string`. -/
inductive Arg where
  | int (i : Int)
  | str (s : String)
  deriving DecidableEq, Repr

/-- What `Sprintf` prints for operands that no verb consumed, after
`%!(EXTRA `: each as `type=value`, separated by `, `. -/
def extraArgs : List Arg → List Char
  | [] => []
  | [.int i] => "int=".data ++ (toString i).data
  | [.str s] => "string=".data ++ s.data
  | .int i :: rest => "int=".data ++ (toString i).data ++ ", ".data ++ extraArgs rest
  | .str s :: rest => "string=".data ++ s.data ++ ", ".data ++ extraArgs rest

/-- Go `fmt.Sprintf(format, args...)` for the verbs `%d`, `%s` and `%%`
without flags, width or precision, which are the verbs of this program's
formats: `%d` prints an `int` in decimal and `%s` a `string` as it is; a verb
and an operand that do not fit print `%!verb(type=value)`, a verb without
operand `%!verb(MISSING)`. -/
def sprintf : List Char → List Arg → List Char
  | [], [] => []
  | [], a :: args => "%!(EXTRA ".data ++ extraArgs (a :: args) ++ [')']
  | ['%'], _ => "%!(NOVERB)".data
  | '%' :: '%' :: rest, args => '%' :: sprintf rest args
  | '%' :: 'd' :: rest, .int i :: args => (toString i).data ++ sprintf rest args
  | '%' :: 's' :: rest, .str s :: args => s.data ++ sprintf rest args
  | '%' :: verb :: rest, .int i :: args =>
    ['%', '!', verb] ++ "(int=".data ++ (toString i).data ++ [')'] ++ sprintf rest args
  | '%' :: verb :: rest, .str s :: args =>
    ['%', '!', verb] ++ "(string=".data ++ s.data ++ [')'] ++ sprintf rest args
  | '%' :: verb :: rest, [] => ['%', '!', verb] ++ "(MISSING)".data ++ sprintf rest []
  | c :: rest, args => c :: sprintf rest args

def Sprintf (format : String) (args : List Arg) : String := ⟨sprintf format.data args⟩

end fmt

/-! ## encoding/xml: the tokens of one element -/

namespace xml

/-- Go `xml.Name`. -/
structure Name where
  Space : String
  Local : String
  deriving DecidableEq, Repr

/-- Go `xml.Token`, the three kinds this program writes. -/
inductive Token where
  | StartElement (name : Name)
  | CharData (data : String)
  | EndElement (name : Name)
  deriving DecidableEq, Repr

/-- Go `Decoder.DecodeElement(&raw, &start)` for a `string` target, run on the
tokens that follow `start`: the character data of the element up to its end
element, that of nested elements being skipped (`depth` counts the nested
elements still open); the input ending before the end element is an error. -/
def decodeElementString : List Token → Nat → String → String × Option GoError
  | [], _, acc => (acc, some (.other "XML syntax error: unexpected EOF"))
  | .CharData data :: rest, depth, acc =>
    decodeElementString rest depth (if depth = 0 then acc ++ data else acc)
  | .StartElement _ :: rest, depth, acc => decodeElementString rest (depth + 1) acc
  | .EndElement _ :: rest, depth, acc =>
    match depth with
    | 0 => (acc, none)
    | d + 1 => decodeElementString rest d acc

end xml

end Go

/-! ## src/newznab/structs.go -/

namespace newznab

open Go

set_option linter.dupNamespace false

/-- Go `type Comment struct`. -/
structure Comment where
  Title : String
  Content : String
  PubDate : time.Time
  deriving DecidableEq, Repr

/-- Go `type NZB struct`; the `float32` field `IMDBScore` is kept as its bit
pattern. -/
structure NZB where
  ID : String
  Title : String
  Description : String
  Size : Int
  AirDate : time.Time
  PubDate : time.Time
  UsenetDate : time.Time
  NumGrabs : Int
  NumComments : Int
  Comments : List Comment
  SourceEndpoint : String
  SourceAPIKey : String
  Category : List String
  Info : String
  Genre : String
  TVDBID : String
  TVRageID : String
  Season : String
  Episode : String
  TVTitle : String
  Rating : Int
  IMDBID : String
  IMDBTitle : String
  IMDBYear : Int
  IMDBScore : Nat
  CoverURL : String
  Seeders : Int
  Peers : Int
  InfoHash : String
  DownloadURL : String
  IsTorrent : Bool
  deriving DecidableEq, Repr

/-- Go `type Time struct { time.Time }`. -/
structure Time where
  Time : time.Time
  deriving DecidableEq, Repr

/-- The element type of `RawNZB.Attributes`. -/
structure Attr where
  XMLName : xml.Name
  Name : String
  Value : String
  deriving DecidableEq, Repr

/-- Go `type RawNZB struct`; the anonymous struct fields `Category`, `GUID`,
`Source` and `Enclosure` are flattened into tuples of their fields. -/
structure RawNZB where
  Title : String
  Link : String
  Size : Int
  Category : String × String
  GUID : String × Bool
  Comments : String
  Description : String
  Author : String
  Source : String × String
  Date : Time
  Enclosure : String × String × String
  Attributes : List Attr
  deriving DecidableEq, Repr

/-- Go `type Channel struct`; `Link`, `Image` and `Response` are flattened
into tuples of their fields. -/
structure Channel where
  Title : String
  Link : String × String × String
  Description : String
  Language : String
  Webmaster : String
  Category : String
  Image : String × String × String × String × Int × Int
  Response : Int × Int
  NZBs : List RawNZB
  deriving DecidableEq, Repr

/-- Go `type SearchResponse struct`. -/
structure SearchResponse where
  Version : String
  ErrorCode : Int
  ErrorDesc : String
  Channel : Channel
  deriving DecidableEq, Repr

/-- Go `func (t *Time) MarshalXML(e *xml.Encoder, start xml.StartElement) error`:
the tokens given to the encoder, and the error, always `nil`. -/
def Time.MarshalXML (t : newznab.Time) (start : xml.Name) :
    List xml.Token × Option GoError :=
  ([.StartElement start,
    .CharData (time.Time.Format (time.Time.UTC t.Time)),
    .EndElement start], none)

/-- Go `func (t *Time) UnmarshalXML(d *xml.Decoder, start xml.StartElement) error`,
the decoder being the tokens that follow `start`: the receiver afterwards, and
the error. -/
def Time.UnmarshalXML (t : newznab.Time) (d : List xml.Token) :
    newznab.Time × Option GoError :=
  let (raw, err) := xml.decodeElementString d 0 ""
  if err ≠ none then (t, err)
  else
    let (date, err) := time.Parse raw
    if err ≠ none then (t, err)
    else (⟨date⟩, none)

end newznab

/-! ## src/usenetcrawler.go -/

namespace usenetcrawler

open Go

/-- Modelled from the spec: the declaration of the record type `NZB` of
package usenetcrawler is not among the sources; it is the domain record of
the spec, whose fields are those of `newznab.NZB`. -/
abbrev NZB := newznab.NZB

/-- Modelled from the spec: the declaration of `Comment` of package
usenetcrawler is not among the sources; it is the comment of the spec, a
title, a content and a publish timestamp, as `newznab.Comment`. -/
abbrev Comment := newznab.Comment

/-- The zero value of `NZB`, as `NZB{}` gives it. -/
def NZB.zero : NZB :=
  { ID := "", Title := "", Description := "", Size := 0, AirDate := time.Time.zero,
    PubDate := time.Time.zero, UsenetDate := time.Time.zero, NumGrabs := 0,
    NumComments := 0, Comments := [], SourceEndpoint := "", SourceAPIKey := "",
    Category := [], Info := "", Genre := "", TVDBID := "", TVRageID := "", Season := "",
    Episode := "", TVTitle := "", Rating := 0, IMDBID := "", IMDBTitle := "",
    IMDBYear := 0, IMDBScore := 0, CoverURL := "", Seeders := 0, Peers := 0,
    InfoHash := "", DownloadURL := "", IsTorrent := false }

def apiBaseURL : String := "https://www.usenet-crawler.com/api"
def tvSpecific : String := apiBaseURL ++ "?t=tvsearch&rid=%d&cat=%d&season=%d&ep=%d&extended=1"
def comments : String := apiBaseURL ++ "?t=comments&id=%s"
def download : String := apiBaseURL ++ "?t=get&id=%s"
def CategoryTVHD : Int := 5040
def CategoryTVSD : Int := 5030

/-- A byte slice. -/
abbrev Bytes := List Nat

/-- Go `*http.Response` as `getURL` uses it: what `ioutil.ReadAll(res.Body)`
returns. -/
structure Response where
  Body : Bytes × Option GoError

/-- Go `type rssComment struct`. -/
structure rssComment where
  Title : String
  Description : String
  PubDate : String
  deriving DecidableEq, Repr

/-- Go `type commentResponse struct`, the anonymous `Channel` being its one
field `Comments`. -/
structure commentResponse where
  Channel : List rssComment
  deriving DecidableEq, Repr

/-- The collaborators outside the program: the network behind `http.Get`, and
`xml.Unmarshal` into a `newznab.SearchResponse` and into a `commentResponse`,
each a function that can fail. -/
structure Extern where
  Get : String → Response × Option GoError
  UnmarshalSearch : Bytes → newznab.SearchResponse × Option GoError
  UnmarshalComments : Bytes → commentResponse × Option GoError

/-- Go `type Client struct`. -/
structure Client where
  apikey : String
  deriving DecidableEq, Repr

/-- Go `func New(apikey string) Client`. -/
def New (apikey : String) : Client := { apikey := apikey }

/-- Go `func getURL(url string) ([]byte, error)`. -/
def getURL (ext : Extern) (url : String) : Bytes × Option GoError :=
  let (res, err) := ext.Get url
  if err ≠ none then ([], err)
  else
    let (data, err) := res.Body
    if err ≠ none then ([], err)
    else (data, none)

/-- Go `func (c Client) withAPIKey(url string) string`. -/
def Client.withAPIKey (c : Client) (url : String) : String :=
  if c.apikey ≠ "" then url ++ ("&apikey=" ++ c.apikey) else url

/-- One turn of the inner loop of `Search`, the `switch attr.Name`. -/
def searchAttr (nzb : NZB) (attr : newznab.Attr) : NZB :=
  if attr.Name = "tvairdate" then
    let (parsedAirDate, err) := time.Parse attr.Value
    if err ≠ none then nzb
    else { nzb with AirDate := parsedAirDate }
  else if attr.Name = "guid" then
    { nzb with ID := attr.Value }
  else if attr.Name = "size" then
    let (parsedInt, _) := strconv.ParseInt attr.Value 0 64
    { nzb with Size := parsedInt }
  else if attr.Name = "grabs" then
    let (parsedInt, _) := strconv.ParseInt attr.Value 0 32
    { nzb with NumGrabs := parsedInt }
  else if attr.Name = "comments" then
    let (parsedInt, _) := strconv.ParseInt attr.Value 0 32
    { nzb with NumComments := parsedInt }
  else nzb

/-- One turn of the outer loop of `Search`: the record made from `gotNZB`. -/
def searchItem (gotNZB : newznab.RawNZB) : NZB :=
  let nzb : NZB :=
    { NZB.zero with
      Title := gotNZB.Title,
      Description := gotNZB.Description,
      PubDate := gotNZB.Date.Time.Add 0 }
  gotNZB.Attributes.foldl searchAttr nzb

/-- Go `func (c Client) Search(category int, tvRageID int, season int, episode int) ([]NZB, error)`. -/
def Client.Search (ext : Extern) (c : Client)
    (category tvRageID season episode : Int) : List NZB × Option GoError :=
  let nzbs : List NZB := []
  let (resp, err) := getURL ext (c.withAPIKey
    (fmt.Sprintf tvSpecific [.int tvRageID, .int category, .int season, .int episode]))
  if err ≠ none then (nzbs, err)
  else
    let (feed, err) := ext.UnmarshalSearch resp
    if err ≠ none then ([], err)
    else
      let nzbs := feed.Channel.NZBs.foldl (fun nzbs gotNZB => nzbs ++ [searchItem gotNZB]) nzbs
      (nzbs, none)

/-- One turn of the loop of `PopulateComments`: the comment made from
`rawComment`. -/
def populateComment (rawComment : rssComment) : Comment :=
  let comment : Comment :=
    { Title := rawComment.Title, Content := rawComment.Description, PubDate := time.Time.zero }
  let (parsedPubDate, err) := time.Parse rawComment.PubDate
  if err ≠ none then comment
  else { comment with PubDate := parsedPubDate }

/-- Go `func (c Client) PopulateComments(nzb *NZB) error`: the record that
`nzb` points to afterwards, and the error. -/
def Client.PopulateComments (ext : Extern) (c : Client) (nzb : NZB) :
    NZB × Option GoError :=
  let (data, err) := getURL ext (c.withAPIKey (fmt.Sprintf comments [.str nzb.ID]))
  if err ≠ none then (nzb, err)
  else
    let (resp, err) := ext.UnmarshalComments data
    if err ≠ none then (nzb, err)
    else
      let nzb := resp.Channel.foldl
        (fun nzb rawComment => { nzb with Comments := nzb.Comments ++ [populateComment rawComment] })
        nzb
      (nzb, none)

/-- Go `func (c Client) DownloadURL(nzb NZB) string`. -/
def Client.DownloadURL (c : Client) (nzb : NZB) : String :=
  c.withAPIKey (fmt.Sprintf download [.str nzb.ID])

/-- Go `func (c Client) Download(nzb NZB) ([]byte, error)`. -/
def Client.Download (ext : Extern) (c : Client) (nzb : NZB) :
    Bytes × Option GoError :=
  getURL ext (c.DownloadURL nzb)

end usenetcrawler

/-! ## The attribute scan as a last-write-wins lookup -/

namespace usenetcrawler

open Go

/-- The last element of `l`, or `d` when `l` is empty. -/
def lastD {α : Type} (l : List α) (d : α) : α := l.foldl (fun _ x => x) d

/-- The values that the scan of `Search` assigns to `AirDate`, in order: the
parsed `tvairdate` values, those that fail to parse leaving no assignment. -/
def airDates (attrs : List newznab.Attr) : List time.Time :=
  attrs.filterMap fun a =>
    if a.Name = "tvairdate" ∧ (time.Parse a.Value).2 = none then some (time.Parse a.Value).1
    else none

/-- The values of the attributes called `name`, in order. -/
def valuesOf (name : String) (attrs : List newznab.Attr) : List String :=
  attrs.filterMap fun a => if a.Name = name then some a.Value else none

/-- The five attribute names that `Search` reads. -/
def recognised (a : newznab.Attr) : Bool :=
  decide (a.Name = "tvairdate" ∨ a.Name = "guid" ∨ a.Name = "size" ∨ a.Name = "grabs" ∨
    a.Name = "comments")

/-- The list `attrs` without the elements that satisfy `p`, the last of them
excepted. -/
def keepLast (p : newznab.Attr → Bool) : List newznab.Attr → List newznab.Attr
  | [] => []
  | a :: rest => if p a = true ∧ rest.any p = true then keepLast p rest else a :: keepLast p rest

/-- The search URL that `Search` fetches. -/
def searchURL (c : Client) (category tvRageID season episode : Int) : String :=
  c.withAPIKey (fmt.Sprintf tvSpecific [.int tvRageID, .int category, .int season, .int episode])

/-- The comments URL that `PopulateComments` fetches. -/
def commentsURL (c : Client) (nzb : NZB) : String :=
  c.withAPIKey (fmt.Sprintf comments [.str nzb.ID])

/-- The transport fails on `url` with the error `e`: `http.Get` does, or
reading the body does. -/
def fetchFails (ext : Extern) (url : String) (e : GoError) : Prop :=
  (ext.Get url).2 = some e ∨ ((ext.Get url).2 = none ∧ (ext.Get url).1.Body.2 = some e)

instance (ext : Extern) (url : String) (e : GoError) :
    Decidable (fetchFails ext url e) := by
  unfold fetchFails; infer_instance

/-- The attribute is a `tvairdate` whose value `time.Parse` accepts. -/
def parsedAirDate (a : newznab.Attr) : Bool :=
  decide (a.Name = "tvairdate" ∧ (time.Parse a.Value).2 = none)

/-- The attribute is called `name`. -/
def named (name : String) (a : newznab.Attr) : Bool := decide (a.Name = name)

/-- The attributes without the `tvairdate` occurrences, the last one whose
value parses excepted. -/
def keepLastParsed (attrs : List newznab.Attr) : List newznab.Attr :=
  keepLast parsedAirDate (attrs.filter fun a => !named "tvairdate" a || parsedAirDate a)

/-- The value `x` is what `strconv.ParseInt(v, 0, bitSize)` returns: the parsed
integer when it succeeds, `0` with a syntax error, the nearest bound of the
bit size with a range error. -/
def numericField (v : String) (bitSize : Nat) (x : Int) : Prop :=
  x = (strconv.ParseInt v 0 bitSize).1 ∧
  ((strconv.ParseInt v 0 bitSize).2 = none ∨
    ((strconv.ParseInt v 0 bitSize).2 = some (.NumError "ParseInt" v .ErrSyntax) ∧ x = 0) ∨
    ((strconv.ParseInt v 0 bitSize).2 = some (.NumError "ParseInt" v .ErrRange) ∧
      (x = 2 ^ (bitSize - 1) - 1 ∨ x = -2 ^ (bitSize - 1))))

instance (v : String) (bitSize : Nat) (x : Int) : Decidable (numericField v bitSize x) := by
  unfold numericField; infer_instance

/-- The raw item `item` with `attrs` as its attribute list. -/
def withAttributes (item : newznab.RawNZB) (attrs : List newznab.Attr) : newznab.RawNZB :=
  { item with Attributes := attrs }

/-! ## Sample data -/

/-- A sample attribute of an item. -/
def sampleAttr (name value : String) : newznab.Attr :=
  { XMLName := ⟨"http://www.newznab.com/DTD/2010/feeds/attributes/", "attr"⟩,
    Name := name, Value := value }

/-- A sample raw item with the given attributes. -/
def sampleItem (title : String) (attrs : List newznab.Attr) : newznab.RawNZB :=
  { Title := title, Link := "", Size := 0, Category := ("", ""), GUID := ("", false),
    Comments := "", Description := "about " ++ title, Author := "", Source := ("", ""),
    Date := ⟨⟨1136239445, 0, -25200⟩⟩, Enclosure := ("", "", ""), Attributes := attrs }

/-- A sample search envelope with the given items. -/
def sampleFeed (items : List newznab.RawNZB) : newznab.SearchResponse :=
  { Version := "2.0", ErrorCode := 0, ErrorDesc := "",
    Channel :=
      { Title := "", Link := ("", "", ""), Description := "", Language := "", Webmaster := "",
        Category := "", Image := ("", "", "", "", 0, 0), Response := (0, 0), NZBs := items } }

/-- A sample world: every fetch gives the same bytes, which decode to `feed`
and to `resp`. -/
def sampleExtern (feed : newznab.SearchResponse) (resp : commentResponse) :
    Extern :=
  { Get := fun _ => (⟨([60, 114, 115, 115, 47, 62], none)⟩, none),
    UnmarshalSearch := fun _ => (feed, none),
    UnmarshalComments := fun _ => (resp, none) }

/-- A sample world in which every fetch fails. -/
def failingExtern : Extern :=
  { Get := fun _ => (⟨([], none)⟩, some (.other "dial tcp: no route to host")),
    UnmarshalSearch := fun _ => (sampleFeed [], none),
    UnmarshalComments := fun _ => (⟨[]⟩, none) }

/-! # Theorems -/

theorem lastD_cons {α : Type} (x : α) (l : List α) (d : α) : lastD (x :: l) d = lastD l x := rfl

theorem lastD_nil {α : Type} (d : α) : lastD ([] : List α) d = d := rfl

theorem lastD_of_ne_nil {α : Type} (l : List α) (h : l ≠ []) (d d' : α) :
    lastD l d = lastD l d' := by
  cases l with
  | nil => exact absurd rfl h
  | cons x xs => rfl

theorem lastD_append_singleton {α : Type} (l : List α) (x d : α) : lastD (l ++ [x]) d = x := by
  simp [lastD, List.foldl_append]

/-- The scan of the attributes, field by field. -/
theorem foldl_searchAttr (attrs : List newznab.Attr) (nzb : NZB) :
    attrs.foldl searchAttr nzb =
      { nzb with
        AirDate := lastD (airDates attrs) nzb.AirDate,
        ID := lastD (valuesOf "guid" attrs) nzb.ID,
        Size := lastD ((valuesOf "size" attrs).map fun v => (strconv.ParseInt v 0 64).1) nzb.Size,
        NumGrabs :=
          lastD ((valuesOf "grabs" attrs).map fun v => (strconv.ParseInt v 0 32).1) nzb.NumGrabs,
        NumComments :=
          lastD ((valuesOf "comments" attrs).map fun v => (strconv.ParseInt v 0 32).1)
            nzb.NumComments } := by
  induction attrs generalizing nzb with
  | nil => rfl
  | cons a rest ih =>
    rw [List.foldl_cons, ih]
    by_cases h1 : a.Name = "tvairdate"
    · by_cases hp : (time.Parse a.Value).2 = none
      · simp [searchAttr, airDates, valuesOf, h1, hp, lastD_cons]
      · simp [searchAttr, airDates, valuesOf, h1, hp, lastD_cons]
    · by_cases h2 : a.Name = "guid"
      · simp [searchAttr, airDates, valuesOf, h1, h2, lastD_cons]
      · by_cases h3 : a.Name = "size"
        · simp [searchAttr, airDates, valuesOf, h1, h2, h3, lastD_cons]
        · by_cases h4 : a.Name = "grabs"
          · simp [searchAttr, airDates, valuesOf, h1, h2, h3, h4, lastD_cons]
          · by_cases h5 : a.Name = "comments"
            · simp [searchAttr, airDates, valuesOf, h1, h2, h3, h4, h5, lastD_cons]
            · simp [searchAttr, airDates, valuesOf, h1, h2, h3, h4, h5]

theorem time_Add_zero (t : time.Time) : t.Add 0 = t := by
  obtain ⟨sec, ⟨n, hn⟩, off⟩ := t
  have h1 : ¬ ((n : Int) ≥ 1000000000) := by omega
  have h2 : ¬ ((n : Int) < 0) := by omega
  simp [time.Time.Add, h1, h2]
  omega

theorem foldl_append_singleton {α β : Type} (f : α → β) (l : List α) (init : List β) :
    l.foldl (fun acc x => acc ++ [f x]) init = init ++ l.map f := by
  induction l generalizing init with
  | nil => simp
  | cons x xs ih => simp [ih]

theorem getURL_ok (ext : Extern) (url : String) (data : Bytes)
    (h1 : (ext.Get url).2 = none) (h2 : (ext.Get url).1.Body = (data, none)) :
    getURL ext url = (data, none) := by
  simp [getURL, h1, h2]

theorem getURL_fails (ext : Extern) (url : String) (e : GoError)
    (h : fetchFails ext url e) : getURL ext url = ([], some e) := by
  rcases h with h | ⟨h1, h2⟩
  · simp [getURL, h]
  · simp [getURL, h1, h2]

/-- When the fetch and the decoding succeed, `Search` returns the records of
the items, in order, and no error. -/
theorem Search_eq (ext : Extern) (c : Client)
    (category tvRageID season episode : Int) (data : Bytes) (feed : newznab.SearchResponse)
    (hfetch : getURL ext (searchURL c category tvRageID season episode) = (data, none))
    (hdec : ext.UnmarshalSearch data = (feed, none)) :
    c.Search ext category tvRageID season episode = (feed.Channel.NZBs.map searchItem, none) := by
  unfold searchURL at hfetch
  simp [Client.Search, hfetch, hdec, foldl_append_singleton]

/-- The record of an item, field by field. -/
theorem searchItem_eq (item : newznab.RawNZB) :
    searchItem item =
      { NZB.zero with
        Title := item.Title,
        Description := item.Description,
        PubDate := item.Date.Time,
        AirDate := lastD (airDates item.Attributes) time.Time.zero,
        ID := lastD (valuesOf "guid" item.Attributes) "",
        Size := lastD ((valuesOf "size" item.Attributes).map fun v => (strconv.ParseInt v 0 64).1) 0,
        NumGrabs :=
          lastD ((valuesOf "grabs" item.Attributes).map fun v => (strconv.ParseInt v 0 32).1) 0,
        NumComments :=
          lastD ((valuesOf "comments" item.Attributes).map fun v => (strconv.ParseInt v 0 32).1)
            0 } := by
  simp [searchItem, foldl_searchAttr, time_Add_zero, NZB.zero]

/-- C1: when the search envelope is fetched and decoded, `Search` returns no
error and as many records as the channel has items, and the record at every
index has the title, description and publish date of the item at that index,
whatever the attributes of the item are. -/
theorem C1_search_one_record_per_item (ext : Extern) (c : Client)
    (category tvRageID season episode : Int) (data : Bytes) (feed : newznab.SearchResponse)
    (hfetch : getURL ext (searchURL c category tvRageID season episode) = (data, none))
    (hdec : ext.UnmarshalSearch data = (feed, none)) :
    (c.Search ext category tvRageID season episode).2 = none ∧
    (c.Search ext category tvRageID season episode).1.length = feed.Channel.NZBs.length ∧
    ∀ (i : Nat) (item : newznab.RawNZB), feed.Channel.NZBs[i]? = some item →
      ∃ r : NZB, (c.Search ext category tvRageID season episode).1[i]? = some r ∧
        r.Title = item.Title ∧ r.Description = item.Description ∧
        r.PubDate = item.Date.Time := by
  rw [Search_eq ext c category tvRageID season episode data feed hfetch hdec]
  refine ⟨rfl, by simp, ?_⟩
  intro i item hi
  refine ⟨searchItem item, by simp [hi], ?_⟩
  rw [searchItem_eq]
  exact ⟨rfl, rfl, rfl⟩

theorem C1_search_one_record_per_item_witness :
    (Client.Search (sampleExtern (sampleFeed [sampleItem "a" [sampleAttr "size" "x"],
        sampleItem "b" []]) ⟨[]⟩) (New "k") 5040 1 2 3).2 = none ∧
    (Client.Search (sampleExtern (sampleFeed [sampleItem "a" [sampleAttr "size" "x"],
        sampleItem "b" []]) ⟨[]⟩) (New "k") 5040 1 2 3).1.length = 2 :=
  have h := C1_search_one_record_per_item
    (sampleExtern (sampleFeed [sampleItem "a" [sampleAttr "size" "x"], sampleItem "b" []]) ⟨[]⟩)
    (New "k") 5040 1 2 3 [60, 114, 115, 115, 47, 62]
    (sampleFeed [sampleItem "a" [sampleAttr "size" "x"], sampleItem "b" []]) rfl rfl
  ⟨h.1, h.2.1⟩

theorem PopulateComments_eq (ext : Extern) (c : Client) (nzb : NZB)
    (data : Bytes) (resp : commentResponse)
    (hfetch : getURL ext (commentsURL c nzb) = (data, none))
    (hdec : ext.UnmarshalComments data = (resp, none)) :
    c.PopulateComments ext nzb =
      ({ nzb with Comments := nzb.Comments ++ resp.Channel.map populateComment }, none) := by
  unfold commentsURL at hfetch
  have hfold : ∀ (l : List rssComment) (n : NZB),
      l.foldl (fun (n : NZB) rawComment =>
        { n with Comments := n.Comments ++ [populateComment rawComment] }) n =
      { n with Comments := n.Comments ++ l.map populateComment } := by
    intro l
    induction l with
    | nil => intro n; simp
    | cons x xs ih => intro n; simp [ih]
  simp [Client.PopulateComments, hfetch, hdec, hfold]

/-- C4: when the transport fails, or the envelope fails to decode, `Search`
returns that error with an empty list of records, and `PopulateComments`
returns that error and leaves the record as it was, its comments included. -/
theorem C4_fatal_errors_propagate (ext : Extern) (c : Client)
    (category tvRageID season episode : Int) (nzb : NZB) (e : GoError) :
    ((fetchFails ext (searchURL c category tvRageID season episode) e ∨
        ∃ data, getURL ext (searchURL c category tvRageID season episode) = (data, none) ∧
          (ext.UnmarshalSearch data).2 = some e) →
      c.Search ext category tvRageID season episode = ([], some e)) ∧
    ((fetchFails ext (commentsURL c nzb) e ∨
        ∃ data, getURL ext (commentsURL c nzb) = (data, none) ∧
          (ext.UnmarshalComments data).2 = some e) →
      c.PopulateComments ext nzb = (nzb, some e)) := by
  constructor
  · rintro (h | ⟨data, h1, h2⟩)
    · have := getURL_fails ext _ e h
      unfold searchURL at this
      simp [Client.Search, this]
    · unfold searchURL at h1
      simp [Client.Search, h1, h2]
  · rintro (h | ⟨data, h1, h2⟩)
    · have := getURL_fails ext _ e h
      unfold commentsURL at this
      simp [Client.PopulateComments, this]
    · unfold commentsURL at h1
      simp [Client.PopulateComments, h1, h2]

theorem C4_fatal_errors_propagate_witness :
    Client.Search failingExtern (New "k") 5040 1 2 3 =
      ([], some (.other "dial tcp: no route to host")) ∧
    Client.PopulateComments failingExtern (New "k") { NZB.zero with ID := "abc" } =
      ({ NZB.zero with ID := "abc" }, some (.other "dial tcp: no route to host")) :=
  have h := C4_fatal_errors_propagate failingExtern (New "k") 5040 1 2 3
    { NZB.zero with ID := "abc" } (.other "dial tcp: no route to host")
  ⟨h.1 (Or.inl (Or.inl rfl)), h.2 (Or.inl (Or.inl rfl))⟩

/-- C5: when the comments envelope is fetched and decoded, `PopulateComments`
returns no error and appends to the comments of the record one comment for
each item of the envelope, in order, each with the title and description of
its item and with the parse of its pubDate, or the zero timestamp when the
pubDate does not parse; the other fields of the record stay as they were. -/
theorem C5_populate_comments_appends (ext : Extern) (c : Client) (nzb : NZB)
    (data : Bytes) (resp : commentResponse)
    (hfetch : getURL ext (commentsURL c nzb) = (data, none))
    (hdec : ext.UnmarshalComments data = (resp, none)) :
    ∃ added : List Comment,
      c.PopulateComments ext nzb = ({ nzb with Comments := nzb.Comments ++ added }, none) ∧
      added.length = resp.Channel.length ∧
      ∀ (j : Nat) (raw : rssComment), resp.Channel[j]? = some raw →
        ∃ cm : Comment, added[j]? = some cm ∧
          cm.Title = raw.Title ∧ cm.Content = raw.Description ∧
          ((time.Parse raw.PubDate).2 = none → cm.PubDate = (time.Parse raw.PubDate).1) ∧
          ((time.Parse raw.PubDate).2 ≠ none → cm.PubDate = time.Time.zero) := by
  refine ⟨resp.Channel.map populateComment,
    PopulateComments_eq ext c nzb data resp hfetch hdec, by simp, ?_⟩
  intro j raw hj
  refine ⟨populateComment raw, by simp [hj], ?_⟩
  by_cases hp : (time.Parse raw.PubDate).2 = none
  · simp [populateComment, hp]
  · simp [populateComment, hp]

theorem C5_populate_comments_appends_witness :
    ∃ added : List Comment,
      Client.PopulateComments
        (sampleExtern (sampleFeed [])
          ⟨[⟨"t1", "d1", "Mon, 02 Jan 2006 15:04:05 -0700"⟩, ⟨"t2", "d2", "yesterday"⟩]⟩)
        (New "k") { NZB.zero with ID := "abc", Comments := [⟨"t0", "c0", time.Time.zero⟩] } =
        ({ NZB.zero with ID := "abc", Comments := [⟨"t0", "c0", time.Time.zero⟩] ++ added },
          none) ∧
      added.length = 2 :=
  have ⟨added, h1, h2, _⟩ := C5_populate_comments_appends
    (sampleExtern (sampleFeed [])
      ⟨[⟨"t1", "d1", "Mon, 02 Jan 2006 15:04:05 -0700"⟩, ⟨"t2", "d2", "yesterday"⟩]⟩)
    (New "k") { NZB.zero with ID := "abc", Comments := [⟨"t0", "c0", time.Time.zero⟩] }
    [60, 114, 115, 115, 47, 62]
    ⟨[⟨"t1", "d1", "Mon, 02 Jan 2006 15:04:05 -0700"⟩, ⟨"t2", "d2", "yesterday"⟩]⟩ rfl rfl
  ⟨added, h1, h2⟩

theorem sprintf_download (id : String) :
    fmt.Sprintf download [.str id] = "https://www.usenet-crawler.com/api?t=get&id=" ++ id := by
  have h : download.data =
      "https://www.usenet-crawler.com/api?t=get&id=".data ++ ['%', 's'] := by decide
  apply String.ext
  show fmt.sprintf download.data [.str id] = _
  rw [h]
  simp [fmt.sprintf]

/-- C6: `DownloadURL` is the download address followed by the ID of the
record, followed by `&apikey=` and the credential when the credential is not
empty and by nothing when it is empty; so it is the same for two records with
the same ID. -/
theorem C6_download_url (c : Client) (r : NZB) :
    c.DownloadURL r =
      "https://www.usenet-crawler.com/api?t=get&id=" ++ r.ID ++
        (if c.apikey = "" then "" else "&apikey=" ++ c.apikey) ∧
    ∀ r2 : NZB, r2.ID = r.ID → c.DownloadURL r2 = c.DownloadURL r := by
  constructor
  · unfold Client.DownloadURL Client.withAPIKey
    rw [sprintf_download]
    by_cases h : c.apikey = ""
    · simp [h]
    · simp [h]
  · intro r2 h
    unfold Client.DownloadURL
    rw [h]

theorem C6_download_url_witness :
    Client.DownloadURL (New "k") { NZB.zero with ID := "abc", Title := "t" } =
      Client.DownloadURL (New "k") { NZB.zero with ID := "abc" } :=
  (C6_download_url (New "k") { NZB.zero with ID := "abc" }).2
    { NZB.zero with ID := "abc", Title := "t" } rfl

theorem baseOf_zero (s : List Char) : ∃ r, strconv.baseOf s 0 = some r := by
  unfold strconv.baseOf
  rw [if_neg (by decide), if_pos rfl]
  split
  · split_ifs <;> exact ⟨_, rfl⟩
  · split_ifs <;> exact ⟨_, rfl⟩
  · exact ⟨_, rfl⟩

theorem ParseUint_zero_err (s : List Char) (b : Nat) (hb : b ≤ 64) :
    (strconv.ParseUint s 0 b).2 = none ∨ strconv.ParseUint s 0 b = (0, some .ErrSyntax) ∨
      (strconv.ParseUint s 0 b).2 = some .ErrRange := by
  obtain ⟨r, hr⟩ := baseOf_zero s
  have hbits : ¬ ((b : Int) < 0 ∨ (b : Int) > 64) := by omega
  unfold strconv.ParseUint
  rw [hr]
  simp only [hbits, if_false]
  by_cases hs : s = []
  · rw [if_pos hs]
    exact Or.inr (Or.inl rfl)
  · rw [if_neg hs]
    generalize strconv.parseUintLoop r.1 _ _ _ r.2 0 false = lr
    cases lr with
    | syntaxError => exact Or.inr (Or.inl rfl)
    | rangeError => exact Or.inr (Or.inr rfl)
    | done n underscores =>
      dsimp only
      split_ifs
      · exact Or.inr (Or.inl rfl)
      · exact Or.inl rfl

theorem signedOf_outcome (s0 : String) (neg : Bool) (un b : Nat) (hb : 0 < b) :
    (strconv.signedOf s0 neg un b).2 = none ∨
    ((strconv.signedOf s0 neg un b).2 = some (.NumError "ParseInt" s0 .ErrRange) ∧
      ((strconv.signedOf s0 neg un b).1 = 2 ^ (b - 1) - 1 ∨
        (strconv.signedOf s0 neg un b).1 = -2 ^ (b - 1))) := by
  have hpos : 1 ≤ 2 ^ (b - 1) := Nat.one_le_two_pow
  have hcast : Int.ofNat (2 ^ (b - 1) - 1) = 2 ^ (b - 1) - 1 := by
    simp only [Int.ofNat_eq_coe]
    push_cast [Nat.cast_sub hpos]
    rfl
  have hcast2 : -Int.ofNat (2 ^ (b - 1)) = -2 ^ (b - 1) := by simp
  have hb0 : ¬ ((b : Int) = 0) := by omega
  unfold strconv.signedOf
  simp only [hb0, if_false, Int.toNat_ofNat]
  split_ifs
  all_goals first
    | exact Or.inl rfl
    | exact Or.inr ⟨rfl, Or.inl hcast⟩
    | exact Or.inr ⟨rfl, Or.inr hcast2⟩

/-- What `ParseInt(s, 0, b)` returns, by the kind of its error. -/
theorem ParseInt_outcome (s : String) (b : Nat) (hb : 0 < b) (hb64 : b ≤ 64) :
    (strconv.ParseInt s 0 b).2 = none ∨
    ((strconv.ParseInt s 0 b).2 = some (.NumError "ParseInt" s .ErrSyntax) ∧
      (strconv.ParseInt s 0 b).1 = 0) ∨
    ((strconv.ParseInt s 0 b).2 = some (.NumError "ParseInt" s .ErrRange) ∧
      ((strconv.ParseInt s 0 b).1 = 2 ^ (b - 1) - 1 ∨
        (strconv.ParseInt s 0 b).1 = -2 ^ (b - 1))) := by
  have hsigned : ∀ (neg : Bool) (un : Nat),
      (strconv.signedOf s neg un b).2 = none ∨
      ((strconv.signedOf s neg un b).2 = some (.NumError "ParseInt" s .ErrSyntax) ∧
        (strconv.signedOf s neg un b).1 = 0) ∨
      ((strconv.signedOf s neg un b).2 = some (.NumError "ParseInt" s .ErrRange) ∧
        ((strconv.signedOf s neg un b).1 = 2 ^ (b - 1) - 1 ∨
          (strconv.signedOf s neg un b).1 = -2 ^ (b - 1))) := by
    intro neg un
    rcases signedOf_outcome s neg un b hb with h | h
    · exact Or.inl h
    · exact Or.inr (Or.inr h)
  unfold strconv.ParseInt
  split
  · exact Or.inr (Or.inl ⟨rfl, rfl⟩)
  · rename_i c0 tl _
    generalize (if c0 = '+' then (false, tl) else if c0 = '-' then (true, tl)
      else (false, c0 :: tl) : Bool × List Char) = p
    obtain ⟨neg, digits⟩ := p
    dsimp only
    have h := ParseUint_zero_err digits b hb64
    generalize strconv.ParseUint digits 0 b = pu at h
    obtain ⟨un, err⟩ := pu
    rcases h with h | h | h
    · dsimp only at h
      subst h
      exact hsigned neg un
    · obtain ⟨h1, h2⟩ := Prod.mk.inj h
      subst h1 h2
      exact Or.inr (Or.inl ⟨rfl, rfl⟩)
    · dsimp only at h
      subst h
      exact hsigned neg un

theorem numericField_ParseInt (v : String) (b : Nat) (hb : 0 < b) (hb64 : b ≤ 64) :
    numericField v b (strconv.ParseInt v 0 b).1 :=
  ⟨rfl, ParseInt_outcome v b hb hb64⟩

theorem lastD_singleton {α : Type} (x d : α) : lastD [x] d = x := rfl

/-- The record found by `Search` at the index of an item is the record of
that item. -/
theorem Search_getElem (ext : Extern) (c : Client)
    (category tvRageID season episode : Int) (data : Bytes) (feed : newznab.SearchResponse)
    (hfetch : getURL ext (searchURL c category tvRageID season episode) = (data, none))
    (hdec : ext.UnmarshalSearch data = (feed, none))
    (i : Nat) (item : newznab.RawNZB) (hitem : feed.Channel.NZBs[i]? = some item) :
    (c.Search ext category tvRageID season episode).2 = none ∧
    (c.Search ext category tvRageID season episode).1[i]? = some (searchItem item) := by
  rw [Search_eq ext c category tvRageID season episode data feed hfetch hdec]
  exact ⟨rfl, by simp [hitem]⟩

/-- C2 (amended): for an item in which `size` (`grabs`, `comments`) occurs
once, with value `v`, the field `Size` (`NumGrabs`, `NumComments`) of its
record is what `strconv.ParseInt(v, 0, 64)` (`32`) returns: the parsed integer
when the parse succeeds, `0` when it fails with a syntax error, the nearest
bound of the bit size when it fails with a range error; `Search` returns no
error in any of these cases. -/
theorem C2_numeric_attributes (ext : Extern) (c : Client)
    (category tvRageID season episode : Int) (data : Bytes) (feed : newznab.SearchResponse)
    (hfetch : getURL ext (searchURL c category tvRageID season episode) = (data, none))
    (hdec : ext.UnmarshalSearch data = (feed, none))
    (i : Nat) (item : newznab.RawNZB) (hitem : feed.Channel.NZBs[i]? = some item) :
    (c.Search ext category tvRageID season episode).2 = none ∧
    ∃ r : NZB, (c.Search ext category tvRageID season episode).1[i]? = some r ∧
      (∀ v, valuesOf "size" item.Attributes = [v] → numericField v 64 r.Size) ∧
      (∀ v, valuesOf "grabs" item.Attributes = [v] → numericField v 32 r.NumGrabs) ∧
      (∀ v, valuesOf "comments" item.Attributes = [v] → numericField v 32 r.NumComments) := by
  obtain ⟨h1, h2⟩ := Search_getElem ext c category tvRageID season episode data feed hfetch hdec
    i item hitem
  refine ⟨h1, searchItem item, h2, ?_, ?_, ?_⟩
  all_goals
    intro v hv
    rw [searchItem_eq]
    simp only [hv, List.map_cons, List.map_nil, lastD_singleton]
    exact numericField_ParseInt v _ (by decide) (by decide)

theorem C2_numeric_attributes_witness :
    (Client.Search (sampleExtern (sampleFeed [sampleItem "a" [sampleAttr "size" "12345"]]) ⟨[]⟩)
      (New "k") 5040 1 2 3).2 = none ∧
    ∃ r : NZB,
      (Client.Search (sampleExtern (sampleFeed [sampleItem "a" [sampleAttr "size" "12345"]]) ⟨[]⟩)
        (New "k") 5040 1 2 3).1[0]? = some r ∧ r.Size = 12345 :=
  have ⟨h1, r, h2, h3, _⟩ := C2_numeric_attributes
    (sampleExtern (sampleFeed [sampleItem "a" [sampleAttr "size" "12345"]]) ⟨[]⟩)
    (New "k") 5040 1 2 3 [60, 114, 115, 115, 47, 62]
    (sampleFeed [sampleItem "a" [sampleAttr "size" "12345"]]) rfl rfl
    0 (sampleItem "a" [sampleAttr "size" "12345"]) rfl
  ⟨h1, r, h2, (h3 "12345" (by decide)).1.trans (by decide)⟩

/-- The value of a `size` attribute that is out of the range of `int64` fails
to parse, and `Size` is then the clamped bound, not `0`. -/
theorem C2_counterexample :
    valuesOf "size" (sampleItem "a" [sampleAttr "size" "9223372036854775808"]).Attributes =
      ["9223372036854775808"] ∧
    strconv.ParseInt "9223372036854775808" 0 64 =
      (9223372036854775807, some (.NumError "ParseInt" "9223372036854775808" .ErrRange)) ∧
    (Client.Search (sampleExtern
      (sampleFeed [sampleItem "a" [sampleAttr "size" "9223372036854775808"]]) ⟨[]⟩)
      (New "k") 5040 1 2 3).2 = none ∧
    (Client.Search (sampleExtern
      (sampleFeed [sampleItem "a" [sampleAttr "size" "9223372036854775808"]]) ⟨[]⟩)
      (New "k") 5040 1 2 3).1.map (fun r => r.Size) = [9223372036854775807] ∧
    (9223372036854775807 : Int) ≠ 0 := by
  decide

theorem filterMap_filter_of {β : Type} (g : newznab.Attr → Option β) (q : newznab.Attr → Bool)
    (h : ∀ a, q a = false → g a = none) (attrs : List newznab.Attr) :
    (attrs.filter q).filterMap g = attrs.filterMap g := by
  induction attrs with
  | nil => rfl
  | cons a rest ih =>
    by_cases hq : q a = true
    · simp [List.filter_cons, hq, List.filterMap_cons, ih]
    · have hq2 : q a = false := by simp [hq]
      simp [List.filter_cons, hq2, List.filterMap_cons, h a hq2, ih]

theorem airDates_eq (attrs : List newznab.Attr) :
    airDates attrs = (valuesOf "tvairdate" attrs).filterMap fun v =>
      if (time.Parse v).2 = none then some (time.Parse v).1 else none := by
  induction attrs with
  | nil => rfl
  | cons a rest ih =>
    unfold airDates valuesOf at *
    by_cases h : a.Name = "tvairdate"
    · by_cases hp : (time.Parse a.Value).2 = none
      · simp [List.filterMap_cons, h, hp, ih]
      · simp [List.filterMap_cons, h, hp, ih]
    · simp [List.filterMap_cons, h, ih]

theorem valuesOf_filter (name : String) (q : newznab.Attr → Bool)
    (h : ∀ a, a.Name = name → q a = true) (attrs : List newznab.Attr) :
    valuesOf name (attrs.filter q) = valuesOf name attrs := by
  unfold valuesOf
  apply filterMap_filter_of
  intro a hq
  by_cases hn : a.Name = name
  · rw [h a hn] at hq; exact absurd hq (by decide)
  · simp [hn]

theorem valuesOf_filter_not_named (name : String) (attrs : List newznab.Attr) :
    valuesOf name (attrs.filter fun a => !named name a) = [] := by
  induction attrs with
  | nil => rfl
  | cons a rest ih =>
    by_cases hn : a.Name = name
    · simpa [List.filter_cons, named, hn] using ih
    · simp [List.filter_cons, named, hn, valuesOf]

/-- C3: for an item in which `tvairdate` occurs once, with value `v`: when
`time.Parse` accepts `v`, `AirDate` is the timestamp parsed from `v`; when it
does not, `AirDate` is the zero timestamp and the record is the one the item
gives without that attribute; `Search` returns no error either way. -/
theorem C3_tvairdate (ext : Extern) (c : Client)
    (category tvRageID season episode : Int) (data : Bytes) (feed : newznab.SearchResponse)
    (hfetch : getURL ext (searchURL c category tvRageID season episode) = (data, none))
    (hdec : ext.UnmarshalSearch data = (feed, none))
    (i : Nat) (item : newznab.RawNZB) (hitem : feed.Channel.NZBs[i]? = some item)
    (v : String) (hv : valuesOf "tvairdate" item.Attributes = [v]) :
    (c.Search ext category tvRageID season episode).2 = none ∧
    ∃ r : NZB, (c.Search ext category tvRageID season episode).1[i]? = some r ∧
      ((time.Parse v).2 = none → r.AirDate = (time.Parse v).1) ∧
      ((time.Parse v).2 ≠ none →
        r.AirDate = time.Time.zero ∧
        r = searchItem
          (withAttributes item (item.Attributes.filter fun a => !named "tvairdate" a))) := by
  obtain ⟨h1, h2⟩ := Search_getElem ext c category tvRageID season episode data feed hfetch hdec
    i item hitem
  refine ⟨h1, searchItem item, h2, ?_, ?_⟩
  · intro hp
    rw [searchItem_eq]
    simp [airDates_eq, hv, hp, lastD_singleton]
  · intro hp
    have hne : ∀ name : String, name ≠ "tvairdate" →
        valuesOf name (item.Attributes.filter fun a => !named "tvairdate" a) =
          valuesOf name item.Attributes := by
      intro name hname
      apply valuesOf_filter
      intro a ha
      have : a.Name ≠ "tvairdate" := by rw [ha]; exact hname
      simp [named, this]
    rw [searchItem_eq, searchItem_eq]
    simp only [withAttributes, airDates_eq, valuesOf_filter_not_named, hv,
      hne "guid" (by decide), hne "size" (by decide), hne "grabs" (by decide),
      hne "comments" (by decide)]
    simp [hp, lastD_nil]

theorem C3_tvairdate_witness :
    (Client.Search (sampleExtern (sampleFeed [sampleItem "a"
        [sampleAttr "tvairdate" "Mon, 02 Jan 2006 15:04:05 -0700"]]) ⟨[]⟩)
      (New "k") 5040 1 2 3).2 = none ∧
    ∃ r : NZB,
      (Client.Search (sampleExtern (sampleFeed [sampleItem "a"
          [sampleAttr "tvairdate" "Mon, 02 Jan 2006 15:04:05 -0700"]]) ⟨[]⟩)
        (New "k") 5040 1 2 3).1[0]? = some r ∧
      r.AirDate = ⟨1136239445, 0, -25200⟩ :=
  have ⟨h1, r, h2, h3, _⟩ := C3_tvairdate
    (sampleExtern (sampleFeed [sampleItem "a"
      [sampleAttr "tvairdate" "Mon, 02 Jan 2006 15:04:05 -0700"]]) ⟨[]⟩)
    (New "k") 5040 1 2 3 [60, 114, 115, 115, 47, 62]
    (sampleFeed [sampleItem "a" [sampleAttr "tvairdate" "Mon, 02 Jan 2006 15:04:05 -0700"]])
    rfl rfl 0 (sampleItem "a" [sampleAttr "tvairdate" "Mon, 02 Jan 2006 15:04:05 -0700"]) rfl
    "Mon, 02 Jan 2006 15:04:05 -0700" (by decide)
  ⟨h1, r, h2, (h3 (by decide)).trans (by decide)⟩

theorem filterMap_ne_nil_of_any {β : Type} (g : newznab.Attr → Option β)
    (p : newznab.Attr → Bool) (hp : ∀ a, (g a).isSome = p a) (attrs : List newznab.Attr)
    (h : attrs.any p = true) : attrs.filterMap g ≠ [] := by
  induction attrs with
  | nil => simp at h
  | cons a rest ih =>
    cases hg : g a with
    | some x => simp [List.filterMap_cons, hg]
    | none =>
      have hpa : p a = false := by rw [← hp a, hg]; rfl
      have hrest : rest.any p = true := by simpa [List.any_cons, hpa] using h
      simpa [List.filterMap_cons, hg] using ih hrest

theorem lastD_filterMap_keepLast {β : Type} (g : newznab.Attr → Option β)
    (p : newznab.Attr → Bool) (hp : ∀ a, (g a).isSome = p a) (attrs : List newznab.Attr) (d : β) :
    lastD ((keepLast p attrs).filterMap g) d = lastD (attrs.filterMap g) d := by
  induction attrs generalizing d with
  | nil => rfl
  | cons a rest ih =>
    cases hg : g a with
    | none =>
      have hpa : p a = false := by rw [← hp a, hg]; rfl
      simp [keepLast, hpa, List.filterMap_cons, hg, ih]
    | some x =>
      have hpa : p a = true := by rw [← hp a, hg]; rfl
      by_cases hany : rest.any p = true
      · have hne := filterMap_ne_nil_of_any g p hp rest hany
        simp only [keepLast, hpa, hany, and_self, if_true, List.filterMap_cons, hg, lastD_cons, ih]
        exact lastD_of_ne_nil _ hne _ _
      · simp [keepLast, hpa, hany, List.filterMap_cons, hg, lastD_cons, ih]

theorem valuesOf_map {β : Type} (name : String) (f : String → β) (attrs : List newznab.Attr) :
    (valuesOf name attrs).map f =
      attrs.filterMap fun a => if a.Name = name then some (f a.Value) else none := by
  induction attrs with
  | nil => rfl
  | cons a rest ih =>
    unfold valuesOf at *
    by_cases h : a.Name = name
    · simp [List.filterMap_cons, h, ih]
    · simp [List.filterMap_cons, h, ih]

theorem lastD_valuesOf_keepLast {β : Type} (name : String) (f : String → β)
    (attrs : List newznab.Attr) (d : β) :
    lastD ((valuesOf name (keepLast (named name) attrs)).map f) d =
      lastD ((valuesOf name attrs).map f) d := by
  rw [valuesOf_map, valuesOf_map]
  apply lastD_filterMap_keepLast
  intro a
  by_cases h : a.Name = name
  · simp [named, h]
  · simp [named, h]

theorem lastD_airDates_keepLastParsed (attrs : List newznab.Attr) (d : time.Time) :
    lastD (airDates (keepLastParsed attrs)) d = lastD (airDates attrs) d := by
  unfold keepLastParsed airDates
  rw [lastD_filterMap_keepLast]
  · rw [filterMap_filter_of]
    intro a ha
    have : ¬ (a.Name = "tvairdate" ∧ (time.Parse a.Value).2 = none) := by
      intro hh
      simp [named, parsedAirDate, hh] at ha
    simp [this]
  · intro a
    by_cases h : a.Name = "tvairdate" ∧ (time.Parse a.Value).2 = none
    · simp [parsedAirDate, h]
    · simp [parsedAirDate, h]

/-- C8 (amended): when `guid`, `size`, `grabs` or `comments` occurs more than
once among the attributes of an item, the last occurrence decides the field
(`ID`, `Size`, `NumGrabs`, `NumComments`): the field is the one the item gives
with every occurrence of that name but the last removed. For `tvairdate` the
last occurrence whose value parses decides `AirDate`: it is the one the item
gives with every `tvairdate` occurrence but that one removed. -/
theorem C8_last_write_wins (item : newznab.RawNZB) :
    (searchItem (withAttributes item (keepLast (named "guid") item.Attributes))).ID =
      (searchItem item).ID ∧
    (searchItem (withAttributes item (keepLast (named "size") item.Attributes))).Size =
      (searchItem item).Size ∧
    (searchItem (withAttributes item (keepLast (named "grabs") item.Attributes))).NumGrabs =
      (searchItem item).NumGrabs ∧
    (searchItem (withAttributes item (keepLast (named "comments") item.Attributes))).NumComments =
      (searchItem item).NumComments ∧
    (searchItem (withAttributes item (keepLastParsed item.Attributes))).AirDate =
      (searchItem item).AirDate := by
  simp only [searchItem_eq, withAttributes]
  refine ⟨?_, ?_, ?_, ?_, ?_⟩
  · have := lastD_valuesOf_keepLast "guid" id item.Attributes ""
    simpa using this
  · exact lastD_valuesOf_keepLast "size" _ item.Attributes 0
  · exact lastD_valuesOf_keepLast "grabs" _ item.Attributes 0
  · exact lastD_valuesOf_keepLast "comments" _ item.Attributes 0
  · exact lastD_airDates_keepLastParsed item.Attributes _

/-- A `tvairdate` that parses followed by one that does not: `AirDate` is the
first one parsed, while the item with only the last occurrence kept has the
zero timestamp. -/
theorem C8_counterexample :
    keepLast (named "tvairdate")
      (sampleItem "a" [sampleAttr "tvairdate" "Mon, 02 Jan 2006 15:04:05 -0700",
        sampleAttr "tvairdate" "soon"]).Attributes = [sampleAttr "tvairdate" "soon"] ∧
    (searchItem (sampleItem "a" [sampleAttr "tvairdate" "Mon, 02 Jan 2006 15:04:05 -0700",
      sampleAttr "tvairdate" "soon"])).AirDate = ⟨1136239445, 0, -25200⟩ ∧
    (searchItem (sampleItem "a" [sampleAttr "tvairdate" "soon"])).AirDate = time.Time.zero ∧
    (searchItem (withAttributes
      (sampleItem "a" [sampleAttr "tvairdate" "Mon, 02 Jan 2006 15:04:05 -0700",
        sampleAttr "tvairdate" "soon"])
      (keepLast (named "tvairdate")
        (sampleItem "a" [sampleAttr "tvairdate" "Mon, 02 Jan 2006 15:04:05 -0700",
          sampleAttr "tvairdate" "soon"]).Attributes))).AirDate ≠
    (searchItem (sampleItem "a" [sampleAttr "tvairdate" "Mon, 02 Jan 2006 15:04:05 -0700",
      sampleAttr "tvairdate" "soon"])).AirDate := by
  decide

theorem searchItem_congr (item : newznab.RawNZB) (attrs1 attrs2 : List newznab.Attr)
    (hair : airDates attrs1 = airDates attrs2)
    (hval : ∀ name, name = "guid" ∨ name = "size" ∨ name = "grabs" ∨ name = "comments" →
      valuesOf name attrs1 = valuesOf name attrs2) :
    searchItem (withAttributes item attrs1) = searchItem (withAttributes item attrs2) := by
  simp only [searchItem_eq, withAttributes, hair, hval "guid" (by simp), hval "size" (by simp),
    hval "grabs" (by simp), hval "comments" (by simp)]

theorem searchItem_filter_recognised (item : newznab.RawNZB) (attrs : List newznab.Attr) :
    searchItem (withAttributes item (attrs.filter recognised)) =
      searchItem (withAttributes item attrs) := by
  apply searchItem_congr
  · unfold airDates
    apply filterMap_filter_of
    intro a ha
    have : a.Name ≠ "tvairdate" := by
      intro h
      simp [recognised, h] at ha
    simp [this]
  · intro name hname
    apply valuesOf_filter
    intro a ha
    rcases hname with h | h | h | h <;> simp [recognised, ha, h]

/-- C9: putting in or taking out, at any places, attributes whose name is
none of `tvairdate`, `guid`, `size`, `grabs`, `comments` leaves the record of
an item as it is (two attribute lists with the same attributes of these five
names, in the same order, give the same record), and `Search` returns that
record and no error. -/
theorem C9_unrecognised_attributes_ignored (ext : Extern) (c : Client)
    (category tvRageID season episode : Int) (data : Bytes) (feed : newznab.SearchResponse)
    (hfetch : getURL ext (searchURL c category tvRageID season episode) = (data, none))
    (hdec : ext.UnmarshalSearch data = (feed, none))
    (i : Nat) (item : newznab.RawNZB) (hitem : feed.Channel.NZBs[i]? = some item)
    (attrs : List newznab.Attr)
    (hattrs : attrs.filter recognised = item.Attributes.filter recognised) :
    (c.Search ext category tvRageID season episode).2 = none ∧
    (c.Search ext category tvRageID season episode).1[i]? =
      some (searchItem (withAttributes item attrs)) := by
  obtain ⟨h1, h2⟩ := Search_getElem ext c category tvRageID season episode data feed hfetch hdec
    i item hitem
  refine ⟨h1, ?_⟩
  rw [h2, ← searchItem_filter_recognised item attrs, hattrs, searchItem_filter_recognised]
  rfl

theorem C9_unrecognised_attributes_ignored_witness :
    (Client.Search (sampleExtern (sampleFeed [sampleItem "a"
        [sampleAttr "year" "2006", sampleAttr "size" "12345", sampleAttr "Size" "7"]]) ⟨[]⟩)
      (New "k") 5040 1 2 3).1[0]? =
    some (searchItem (withAttributes
      (sampleItem "a" [sampleAttr "year" "2006", sampleAttr "size" "12345", sampleAttr "Size" "7"])
      [sampleAttr "size" "12345", sampleAttr "language" "en"])) :=
  (C9_unrecognised_attributes_ignored
    (sampleExtern (sampleFeed [sampleItem "a"
      [sampleAttr "year" "2006", sampleAttr "size" "12345", sampleAttr "Size" "7"]]) ⟨[]⟩)
    (New "k") 5040 1 2 3 [60, 114, 115, 115, 47, 62]
    (sampleFeed [sampleItem "a"
      [sampleAttr "year" "2006", sampleAttr "size" "12345", sampleAttr "Size" "7"]])
    rfl rfl 0
    (sampleItem "a" [sampleAttr "year" "2006", sampleAttr "size" "12345", sampleAttr "Size" "7"])
    rfl [sampleAttr "size" "12345", sampleAttr "language" "en"] (by decide)).2

theorem perm_eq_of_length_le_one {β : Type} {l1 l2 : List β} (h : l1.Perm l2)
    (hlen : l1.length ≤ 1) : l1 = l2 := by
  match l1, hlen with
  | [], _ => exact h.nil_eq
  | [x], _ => exact (List.singleton_perm.mp h)

theorem valuesOf_length (name : String) (attrs : List newznab.Attr) :
    (valuesOf name attrs).length = attrs.countP (named name) := by
  induction attrs with
  | nil => rfl
  | cons a rest ih =>
    unfold valuesOf at *
    by_cases h : a.Name = name
    · simp [List.filterMap_cons, List.countP_cons, named, h, ih]
    · simp [List.filterMap_cons, List.countP_cons, named, h, ih]

/-- C10: for an item whose attributes hold each of the names `tvairdate`,
`guid`, `size`, `grabs`, `comments` at most once, every permutation of the
attribute list gives the same record. -/
theorem C10_attribute_order_irrelevant (item : newznab.RawNZB) (attrs : List newznab.Attr)
    (hperm : item.Attributes.Perm attrs)
    (honce : ∀ name, name = "tvairdate" ∨ name = "guid" ∨ name = "size" ∨ name = "grabs" ∨
      name = "comments" → item.Attributes.countP (named name) ≤ 1) :
    searchItem (withAttributes item attrs) = searchItem item := by
  have hval : ∀ name, name = "tvairdate" ∨ name = "guid" ∨ name = "size" ∨ name = "grabs" ∨
      name = "comments" → valuesOf name item.Attributes = valuesOf name attrs := by
    intro name hname
    have hlen : (valuesOf name item.Attributes).length ≤ 1 := by
      rw [valuesOf_length]
      exact honce name hname
    exact perm_eq_of_length_le_one (hperm.filterMap _) hlen
  have h := searchItem_congr item item.Attributes attrs
    (by rw [airDates_eq, airDates_eq, hval "tvairdate" (by simp)])
    (fun name hname => hval name (Or.inr hname))
  exact h.symm

theorem C10_attribute_order_irrelevant_witness :
    searchItem (withAttributes
      (sampleItem "a" [sampleAttr "size" "12345", sampleAttr "guid" "abc", sampleAttr "x" "1"])
      [sampleAttr "x" "1", sampleAttr "guid" "abc", sampleAttr "size" "12345"]) =
    searchItem
      (sampleItem "a" [sampleAttr "size" "12345", sampleAttr "guid" "abc", sampleAttr "x" "1"]) :=
  C10_attribute_order_irrelevant
    (sampleItem "a" [sampleAttr "size" "12345", sampleAttr "guid" "abc", sampleAttr "x" "1"])
    [sampleAttr "x" "1", sampleAttr "guid" "abc", sampleAttr "size" "12345"]
    (by
      show List.Perm [sampleAttr "size" "12345", sampleAttr "guid" "abc", sampleAttr "x" "1"]
        [sampleAttr "x" "1", sampleAttr "guid" "abc", sampleAttr "size" "12345"]
      exact (List.Perm.swap _ _ _).trans
        (((List.Perm.swap _ _ _).cons _).trans (List.Perm.swap _ _ _)))
    (by
      intro name hname
      rcases hname with h | h | h | h | h <;> subst h <;> decide)

end usenetcrawler

/-! ## The calendar and the round trip of the RFC1123Z layout -/

namespace Go.time

theorem norm_of_lt (hi lo base : Int) (h0 : 0 ≤ lo) (h1 : lo < base) :
    norm hi lo base = (hi, lo) := by
  have h0' : ¬ lo < 0 := by omega
  have h1' : ¬ lo ≥ base := by omega
  simp [norm, h0', h1']

theorem toInt64_of_range (x : Int) (h0 : -9223372036854775808 ≤ x)
    (h1 : x < 9223372036854775808) : toInt64 x = x := by
  unfold toInt64
  omega

theorem toUint64_of_range (x : Int) (h0 : 0 ≤ x) (h1 : x < 18446744073709551616) :
    toUint64 x = x.toNat := by
  unfold toUint64
  congr 1
  omega

/-- The year and day of the year of an instant of the years 0 to 9999, by
the cycles of 400, 100, 4 and 1 years that it lies in. -/
theorem absYearDay_spec (A : Nat) (hlo : 9223371966548102400 ≤ A)
    (hhi : A ≤ 9223372282117622399) :
    ∃ n1 n2 n3 n4 yday : Nat,
      absYearDay A = (((400 * n1 + 100 * n2 + 4 * n3 + n4 : Nat) : Int) - 292277022399, yday) ∧
      n2 ≤ 3 ∧ n3 ≤ 24 ∧ n4 ≤ 3 ∧
      A / 86400 = 146097 * n1 + 36524 * n2 + 1461 * n3 + 365 * n4 + yday ∧
      (yday ≤ 364 ∨ (yday = 365 ∧ n4 = 3 ∧ (n3 < 24 ∨ n2 = 3))) ∧
      292277022399 ≤ 400 * n1 + 100 * n2 + 4 * n3 + n4 ∧
      400 * n1 + 100 * n2 + 4 * n3 + n4 ≤ 292277022399 + 9999 := by
  refine ⟨A / 86400 / 146097,
    (A / 86400 - 146097 * (A / 86400 / 146097)) / 36524 -
      (A / 86400 - 146097 * (A / 86400 / 146097)) / 36524 / 4, ?_⟩
  generalize hd0 : A / 86400 = d0
  generalize hn1 : d0 / 146097 = n1
  generalize hd1 : d0 - 146097 * n1 = d1
  generalize hn2 : d1 / 36524 - d1 / 36524 / 4 = n2
  generalize hd2 : d1 - 36524 * n2 = d2
  refine ⟨d2 / 1461, (d2 - 1461 * (d2 / 1461)) / 365 - (d2 - 1461 * (d2 / 1461)) / 365 / 4,
    d2 - 1461 * (d2 / 1461) -
      365 * ((d2 - 1461 * (d2 / 1461)) / 365 - (d2 - 1461 * (d2 / 1461)) / 365 / 4), ?_⟩
  generalize hn3 : d2 / 1461 = n3
  generalize hd3 : d2 - 1461 * n3 = d3
  generalize hn4 : d3 / 365 - d3 / 365 / 4 = n4
  generalize hyd : d3 - 365 * n4 = yday
  have hd0lo : 106751990353566 ≤ d0 := by omega
  have hd0hi : d0 ≤ 106751994005990 := by omega
  have hd1' : d1 < 146097 := by omega
  have hn2' : n2 ≤ 3 := by omega
  have hd2' : d2 ≤ 36524 := by omega
  have hn3' : n3 ≤ 24 := by omega
  have hd3' : d3 ≤ 1460 := by omega
  have hn4' : n4 ≤ 3 := by omega
  have hn1lo : 730692555 ≤ n1 := by omega
  have hylo : 292277022399 ≤ 400 * n1 + 100 * n2 + 4 * n3 + n4 := by
    by_cases hn : n1 = 730692555
    · have h2 : n2 = 3 := by omega
      have h3 : n3 = 24 := by omega
      have h4 : n4 = 3 := by omega
      omega
    · omega
  refine ⟨?_, hn2', hn3', hn4', by omega, by omega, hylo, by omega⟩
  have e1 : (365 * 400 + 97 : Nat) = 146097 := by norm_num
  have e2 : (365 * 100 + 24 : Nat) = 36524 := by norm_num
  have e3 : (365 * 4 + 1 : Nat) = 1461 := by norm_num
  simp only [absYearDay, secondsPerDay, daysPer400Years, daysPer100Years, daysPer4Years,
    absoluteZeroYear, e1, e2, e3, hd0, hn1, hd1, hn2, hd2, hn3, hd3, hn4, hyd]
  rw [toInt64_of_range _ (by omega) (by omega)]
  rfl

theorem isLeap_cycles (n1 n2 n3 n4 : Nat) (h2 : n2 ≤ 3) (h3 : n3 ≤ 24) (h4 : n4 ≤ 3) :
    isLeap (((400 * n1 + 100 * n2 + 4 * n3 + n4 : Nat) : Int) - 292277022399) =
      decide (n4 = 3 ∧ (n3 < 24 ∨ n2 = 3)) := by
  unfold isLeap
  rw [decide_eq_decide]
  push_cast
  omega

theorem daysSinceEpoch_cycles (n1 n2 n3 n4 : Nat) (h2 : n2 ≤ 3) (h3 : n3 ≤ 24) (h4 : n4 ≤ 3)
    (hhi : 400 * n1 + 100 * n2 + 4 * n3 + n4 ≤ 292277022399 + 9999) :
    daysSinceEpoch (((400 * n1 + 100 * n2 + 4 * n3 + n4 : Nat) : Int) - 292277022399) =
      146097 * n1 + 36524 * n2 + 1461 * n3 + 365 * n4 := by
  have e1 : (365 * 400 + 97 : Nat) = 146097 := by norm_num
  have e2 : (365 * 100 + 24 : Nat) = 36524 := by norm_num
  have e3 : (365 * 4 + 1 : Nat) = 1461 := by norm_num
  have hy : toUint64 (((400 * n1 + 100 * n2 + 4 * n3 + n4 : Nat) : Int) - 292277022399 -
      absoluteZeroYear) = 400 * n1 + 100 * n2 + 4 * n3 + n4 := by
    unfold absoluteZeroYear
    rw [toUint64_of_range _ (by omega) (by omega)]
    omega
  simp only [daysSinceEpoch, hy, daysPer400Years, daysPer100Years, daysPer4Years, e1, e2, e3]
  generalize hy : 400 * n1 + 100 * n2 + 4 * n3 + n4 = y
  have q1 : y / 400 = n1 := by omega
  rw [q1]
  have q2 : (y - 400 * n1) / 100 = n2 := by omega
  rw [q2]
  have q3 : (y - 400 * n1 - 100 * n2) / 4 = n3 := by omega
  rw [q3]
  omega

theorem monthDay_spec (year : Int) (yday month day : Nat)
    (hyd : yday ≤ 364 ∨ (yday = 365 ∧ isLeap year = true))
    (hmd : monthDay year yday = (month, day)) :
    1 ≤ month ∧ month ≤ 12 ∧ 1 ≤ day ∧ day ≤ daysIn month year ∧
    daysBefore.getD (month - 1) 0 + (if isLeap year = true ∧ month ≥ 3 then 1 else 0) +
      (day - 1) = yday := by
  unfold monthDay at hmd
  by_cases hL : isLeap year = true
  · by_cases h59 : yday = 31 + 29 - 1
    · rw [if_pos ⟨hL, h59⟩] at hmd
      obtain ⟨rfl, rfl⟩ := Prod.mk.inj hmd
      simp [hL, h59, daysIn, daysBefore]
    · rw [if_neg (fun h => h59 h.2)] at hmd
      simp only [hL, true_and] at hmd
      generalize hday : (if yday > 31 + 29 - 1 then yday - 1 else yday) = d at hmd
      have hdaylt : d ≤ 364 := by split_ifs at hday <;> omega
      generalize hm : d / 31 = m at hmd
      have hm' : m ≤ 11 := by omega
      interval_cases m <;> simp [daysBefore] at hmd <;> split_ifs at hmd hday <;>
        simp at hmd <;> obtain ⟨h1, h2⟩ := hmd <;> subst h1 h2 <;>
        simp [daysBefore, daysIn, hL] <;> omega
  · have hL' : isLeap year = false := by simpa using hL
    have hyd' : yday ≤ 364 := by
      rcases hyd with h | ⟨_, h⟩
      · exact h
      · exact absurd h hL
    simp only [hL', Bool.false_eq_true, false_and, if_false] at hmd
    generalize hm : yday / 31 = m at hmd
    have hm' : m ≤ 11 := by omega
    interval_cases m <;> simp [daysBefore] at hmd <;> split_ifs at hmd <;>
      simp at hmd <;> obtain ⟨h1, h2⟩ := hmd <;> subst h1 h2 <;>
      simp [daysBefore, daysIn, hL'] <;> omega

theorem toInt64_sub_toInt64 (x y : Int) : toInt64 (toInt64 x - y) = toInt64 (x - y) := by
  unfold toInt64
  omega

theorem toInt64_idem (x : Int) : toInt64 (toInt64 x) = toInt64 x := by
  unfold toInt64
  omega

theorem absClock_spec (A : Nat) :
    (absClock A).1 < 24 ∧ (absClock A).2.1 < 60 ∧ (absClock A).2.2 < 60 ∧
    (absClock A).1 * 3600 + (absClock A).2.1 * 60 + (absClock A).2.2 = A % 86400 := by
  simp only [absClock, secondsPerDay]
  omega

theorem absWeekday_lt (A : Nat) : absWeekday A < 7 := by
  simp only [absWeekday, secondsPerDay]
  omega

/-- The instant that `Date` gives for a valid calendar date and clock time of
the years 0 to 9999, in UTC. -/
theorem Date_of_calendar (year : Int) (month day h m s D yday : Nat)
    (hD : daysSinceEpoch year = D)
    (hm1 : 1 ≤ month) (hm12 : month ≤ 12) (hd1 : 1 ≤ day)
    (hyd : daysBefore.getD (month - 1) 0 + (if isLeap year = true ∧ month ≥ 3 then 1 else 0) +
      (day - 1) = yday)
    (hh : h < 24) (hmin : m < 60) (hs : s < 60)
    (hlo : 9223371966548102400 ≤ (D + yday) * 86400 + h * 3600 + m * 60 + s)
    (hhi : (D + yday) * 86400 + h * 3600 + m * 60 + s ≤ 9223372282117622399) :
    Date year month day h m s 0 0 =
      ⟨(((D + yday) * 86400 + h * 3600 + m * 60 + s : Nat) : Int) - 9223372028715321600, 0, 0⟩ := by
  have n1 := norm_of_lt year ((month : Int) - 1) 12 (by omega) (by omega)
  have n2 := norm_of_lt (s : Int) 0 1000000000 (by omega) (by omega)
  have n3 := norm_of_lt (m : Int) (s : Int) 60 (by omega) (by omega)
  have n4 := norm_of_lt (h : Int) (m : Int) 60 (by omega) (by omega)
  have n5 := norm_of_lt (day : Int) (h : Int) 24 (by omega) (by omega)
  have e1 : ((month : Int) - 1 + 1 - 1).toNat = month - 1 := by omega
  have e2 : ((month : Int) - 1 + 1 ≥ 3) ↔ month ≥ 3 := by omega
  unfold Date
  dsimp only
  rw [n1]
  dsimp only
  rw [n2]
  dsimp only
  rw [n3]
  dsimp only
  rw [n4]
  dsimp only
  rw [n5]
  dsimp only
  rw [hD, e1]
  generalize daysBefore.getD (month - 1) 0 = db at hyd ⊢
  have hX : (if isLeap year = true ∧ (month : Int) - 1 + 1 ≥ 3 then (D : Int) + (db : Int) + 1
      else (D : Int) + (db : Int)) + ((day : Int) - 1) = ((D + yday : Nat) : Int) := by
    by_cases hc : isLeap year = true ∧ month ≥ 3
    · rw [if_pos hc] at hyd
      rw [if_pos ⟨hc.1, e2.mpr hc.2⟩]
      omega
    · rw [if_neg hc] at hyd
      rw [if_neg (fun hh => hc ⟨hh.1, e2.mp hh.2⟩)]
      omega
  rw [hX]
  have u1 : toUint64 ((D + yday : Nat) : Int) = D + yday := by
    rw [toUint64_of_range _ (by omega) (by omega)]
    omega
  rw [u1]
  have u2 : (D + yday) * secondsPerDay % 2 ^ 64 = (D + yday) * 86400 := by
    unfold secondsPerDay
    omega
  rw [u2]
  have u3 : toUint64 ((((D + yday) * 86400 : Nat) : Int) + ((h : Int) * 3600 + (m : Int) * 60 + (s : Int))) =
      (D + yday) * 86400 + h * 3600 + m * 60 + s := by
    rw [toUint64_of_range _ (by omega) (by omega)]
    omega
  rw [u3]
  generalize (D + yday) * 86400 + h * 3600 + m * 60 + s = A at hlo hhi ⊢
  rw [Time.mk.injEq]
  refine ⟨?_, ?_, rfl⟩
  · unfold unixToAbsolute
    rw [Int.sub_zero, toInt64_idem, toInt64_sub_toInt64,
      toInt64_of_range _ (by omega) (by omega)]
  · apply Fin.ext
    simp

theorem appendInt_two (b : List Char) (n : Nat) (hn : n < 100) :
    appendInt b (n : Int) 2 = b ++ [digit (n / 10), digit (n % 10)] := by
  have h0 : ¬ ((n : Int) < 0) := by omega
  simp [appendInt, h0, hn]

theorem appendInt_four (b : List Char) (n : Nat) (hn : n < 10000) :
    appendInt b (n : Int) 4 =
      b ++ [digit (n / 100 / 10), digit (n / 100 % 10), digit (n % 100 / 10),
        digit (n % 100 % 10)] := by
  have h0 : ¬ ((n : Int) < 0) := by omega
  simp [appendInt, h0, hn]

theorem longDayNames_take (wd : Nat) (h : wd < 7) :
    (longDayNames.getD wd "").data.take 3 = (shortDayNames.getD wd "").data := by
  interval_cases wd <;> rfl

theorem longMonthNames_take (mo : Nat) (h : mo < 12) :
    (longMonthNames.getD mo "").data.take 3 = (shortMonthNames.getD mo "").data := by
  interval_cases mo <;> rfl

/-- The text that `Format` writes for a time in UTC whose date has a year
from 0 to 9999. -/
theorem formatRFC1123Z_eq (t : Time) (year day month yday : Nat) (hoff : t.offset = 0)
    (hdate : absDate t.abs = ((year : Int), month, day, yday))
    (hy : year < 10000) (hm1 : 1 ≤ month) (hm12 : month ≤ 12) (hd : day < 100) :
    formatRFC1123Z t =
      textRFC1123Z (absWeekday t.abs) day month year (absClock t.abs).1 (absClock t.abs).2.1
        (absClock t.abs).2.2 := by
  obtain ⟨hh, hmi, hs, _⟩ := absClock_spec t.abs
  have hz : ¬ (Int.tdiv 0 60 < 0) := by decide
  simp only [formatRFC1123Z, hdate, hoff, hz, if_false]
  rw [appendInt_two _ day hd, appendInt_four _ year hy,
    appendInt_two _ (absClock t.abs).1 (by omega), appendInt_two _ (absClock t.abs).2.1 (by omega),
    appendInt_two _ (absClock t.abs).2.2 (by omega)]
  rw [longDayNames_take _ (absWeekday_lt _), longMonthNames_take _ (by omega)]
  have z1 : (Int.tdiv 0 60).tdiv 60 = ((0 : Nat) : Int) := by decide
  have z2 : (Int.tdiv 0 60).tmod 60 = ((0 : Nat) : Int) := by decide
  rw [z1, z2, appendInt_two _ 0 (by decide), appendInt_two _ 0 (by decide)]
  have d0 : digit 0 = '0' := by decide
  simp [textRFC1123Z, d0]

theorem isDigitChar_digit (d : Nat) (h : d < 10) : isDigitChar (digit d) = true := by
  interval_cases d <;> decide

theorem toNat_digit (d : Nat) (h : d < 10) : (digit d).toNat - '0'.toNat = d := by
  interval_cases d <;> decide

theorem toNat_digit' (d : Nat) (h : d < 10) : (digit d).toNat - 48 = d := toNat_digit d h

theorem toNat_digit_ge (d : Nat) (h : d < 10) : 48 ≤ (digit d).toNat := by
  interval_cases d <;> decide

theorem digit_ne_space (d : Nat) (h : d < 10) : digit d ≠ ' ' := by
  interval_cases d <;> decide

theorem lookup_shortDayNames (wd : Nat) (h : wd < 7) (rest : List Char) :
    lookup shortDayNames 0 ((shortDayNames.getD wd "").data ++ rest) = some (wd, rest) := by
  interval_cases wd <;> simp [lookup, shortDayNames, matchFold]

theorem lookup_shortMonthNames (mo : Nat) (h : mo < 12) (rest : List Char) :
    lookup shortMonthNames 0 ((shortMonthNames.getD mo "").data ++ rest) = some (mo, rest) := by
  interval_cases mo <;> simp [lookup, shortMonthNames, matchFold]

theorem getnum_digits (a b : Nat) (ha : a < 10) (hb : b < 10) (isFixed : Bool)
    (rest : List Char) :
    getnum (digit a :: digit b :: rest) isFixed = some (a * 10 + b, rest) := by
  simp [getnum, isDigitChar_digit a ha, isDigitChar_digit b hb, toNat_digit' a ha,
    toNat_digit' b hb]

theorem skip_comma_space_digit (d : Nat) (hd : d < 10) (rest : List Char) :
    skip (',' :: ' ' :: digit d :: rest) [',', ' '] false = some (digit d :: rest) := by
  simp [skip, cutspace, digit_ne_space d hd]

theorem skip_space_digit (d : Nat) (hd : d < 10) (rest : List Char) :
    skip (' ' :: digit d :: rest) [' '] false = some (digit d :: rest) := by
  simp [skip, cutspace, digit_ne_space d hd]

theorem skip_space_month (mo : Nat) (h : mo < 12) (rest : List Char) :
    skip (' ' :: ((shortMonthNames.getD mo "").data ++ rest)) [' '] false =
      some ((shortMonthNames.getD mo "").data ++ rest) := by
  interval_cases mo <;> simp [skip, cutspace, shortMonthNames]

theorem skip_space_plus (rest : List Char) :
    skip (' ' :: '+' :: rest) [' '] false = some ('+' :: rest) := by
  simp [skip, cutspace]

theorem skip_colon (rest : List Char) : skip (':' :: rest) [':'] false = some rest := by
  simp [skip]

theorem digit_ne_sign (d : Nat) (h : d < 10) : ¬ (digit d = '-' ∨ digit d = '+') := by
  interval_cases d <;> decide

theorem leadingInt_digit (y x : Nat) (hy : y < 10) (hx : x < 1000) (rest : List Char) :
    leadingInt (digit y :: rest) x = leadingInt rest (x * 10 + y) := by
  have h1 : ¬ (x > 2 ^ 63 / 10) := by omega
  have h2 : (x * 10 + (digit y).toNat - '0'.toNat) % 2 ^ 64 = x * 10 + y := by
    have := toNat_digit' y hy
    have := toNat_digit_ge y hy
    have e0 : '0'.toNat = 48 := by decide
    rw [e0]
    omega
  have h3 : ¬ (x * 10 + y > 2 ^ 63) := by omega
  simp only [leadingInt, isDigitChar_digit y hy, h1, h2, h3, if_false, Bool.true_eq_false]

theorem parseLongYear_digits (a b c d : Nat) (ha : a < 10) (hb : b < 10) (hc : c < 10)
    (hd : d < 10) (rest : List Char) :
    parseLongYear (digit a :: digit b :: digit c :: digit d :: rest) =
      some (((a * 1000 + b * 100 + c * 10 + d : Nat) : Int), rest) := by
  simp only [parseLongYear, isDigitChar_digit a ha, if_true, List.take, atoi,
    digit_ne_sign a ha, if_false]
  rw [leadingInt_digit a 0 ha (by omega), leadingInt_digit b _ hb (by omega),
    leadingInt_digit c _ hc (by omega), leadingInt_digit d _ hd (by omega)]
  simp only [leadingInt, Bool.false_eq_true, if_false, Option.map_some', List.drop]
  rw [toInt64_of_range _ (by omega) (by omega)]
  congr 3
  omega

theorem parseFraction_space (rest : List Char) :
    parseFraction (' ' :: '+' :: rest) = some (0, ' ' :: '+' :: rest) := by
  simp [parseFraction]

theorem parseNumTZ_zero : parseNumTZ ['+', '0', '0', '0', '0'] = some (0, []) := by
  decide

theorem inRange_true {α : Type} (x : α) : inRange true x = some x := rfl

/-- `Parse` reads the text of a valid date and clock time back to the instant
that `Date` gives for them. -/
theorem parseRFC1123Z_text (wd day month year h m s : Nat) (hwd : wd < 7)
    (hd1 : 1 ≤ day) (hdin : day ≤ daysIn month year) (hd : day < 100)
    (hm1 : 1 ≤ month) (hm12 : month ≤ 12) (hy : year < 10000)
    (hh : h < 24) (hm : m < 60) (hs : s < 60) :
    parseRFC1123Z (textRFC1123Z wd day month year h m s) =
      some (Date year month day h m s 0 0) := by
  have ed : day / 10 * 10 + day % 10 = day := by omega
  have ey : year / 100 / 10 * 1000 + year / 100 % 10 * 100 + year % 100 / 10 * 10 +
      year % 100 % 10 = year := by omega
  have eh : h / 10 * 10 + h % 10 = h := by omega
  have em : m / 10 * 10 + m % 10 = m := by omega
  have es : s / 10 * 10 + s % 10 = s := by omega
  have emo : month - 1 + 1 = month := by omega
  have s1 := fun rest => lookup_shortDayNames wd hwd rest
  have s2 := fun rest => skip_comma_space_digit (day / 10) (by omega) rest
  have s3 := fun rest => getnum_digits (day / 10) (day % 10) (by omega) (by omega) true rest
  have s4 := fun rest => skip_space_month (month - 1) (by omega) rest
  have s5 := fun rest => lookup_shortMonthNames (month - 1) (by omega) rest
  have s6 := fun rest => skip_space_digit (year / 100 / 10) (by omega) rest
  have s7 := fun rest => parseLongYear_digits (year / 100 / 10) (year / 100 % 10)
    (year % 100 / 10) (year % 100 % 10) (by omega) (by omega) (by omega) (by omega) rest
  have s8 := fun rest => skip_space_digit (h / 10) (by omega) rest
  have s9 := fun rest => getnum_digits (h / 10) (h % 10) (by omega) (by omega) false rest
  have s10 := fun rest => getnum_digits (m / 10) (m % 10) (by omega) (by omega) true rest
  have s11 := fun rest => getnum_digits (s / 10) (s % 10) (by omega) (by omega) true rest
  simp only [parseRFC1123Z, textRFC1123Z, parseDatePart, parseClockPart, s1, s2, s3, s4, s5,
    s6, s7, s8, s9, s10, s11, skip_colon, skip_space_plus, parseFraction_space, parseNumTZ_zero,
    Option.some_bind, ed, ey, eh, em, es, emo, hh, hm, hs, hd1, hdin, decide_True, inRange_true,
    and_self]

theorem daysIn_le (month : Nat) (year : Int) (h1 : 1 ≤ month) (h12 : month ≤ 12) :
    daysIn month year ≤ 31 := by
  unfold daysIn
  interval_cases month <;> simp [daysBefore]
  split_ifs <;> omega

/-- Round trip of the layout `RFC1123Z`: for an instant of the years 0 to
9999, `Parse` reads the text that `Format` writes for it in UTC back to the
same second, with no nanoseconds and offset zero. -/
theorem parse_format_UTC (t : Time) (hlo : -62167219200 ≤ t.sec) (hhi : t.sec ≤ 253402300799) :
    parseRFC1123Z (formatRFC1123Z t.UTC) = some ⟨t.sec, 0, 0⟩ := by
  have hA : t.UTC.abs = (t.sec + 9223372028715321600).toNat := by
    simp only [Time.abs, Time.UTC, unixToAbsolute, Int.add_zero]
    rw [toUint64_of_range _ (by omega) (by omega)]
  generalize hAA : t.UTC.abs = A at hA
  have hAlo : 9223371966548102400 ≤ A := by omega
  have hAhi : A ≤ 9223372282117622399 := by omega
  obtain ⟨n1, n2, n3, n4, yday, hyd, h2, h3, h4, hdiv, hlast, hylo, hyhi⟩ :=
    absYearDay_spec A hAlo hAhi
  generalize hy : 400 * n1 + 100 * n2 + 4 * n3 + n4 = y at hyd hylo hyhi
  have hyear : ((y : Int) - 292277022399) = ((y - 292277022399 : Nat) : Int) := by omega
  have hleap : isLeap ((y : Int) - 292277022399) = decide (n4 = 3 ∧ (n3 < 24 ∨ n2 = 3)) := by
    rw [← hy]; exact isLeap_cycles n1 n2 n3 n4 h2 h3 h4
  have hD : daysSinceEpoch ((y : Int) - 292277022399) =
      146097 * n1 + 36524 * n2 + 1461 * n3 + 365 * n4 := by
    rw [← hy]; exact daysSinceEpoch_cycles n1 n2 n3 n4 h2 h3 h4 (by omega)
  cases hmd : monthDay ((y : Int) - 292277022399) yday with
  | mk month day =>
    have hyd' : yday ≤ 364 ∨ (yday = 365 ∧ isLeap ((y : Int) - 292277022399) = true) := by
      rcases hlast with h | ⟨h, h'⟩
      · exact Or.inl h
      · exact Or.inr ⟨h, by rw [hleap]; simpa using h'⟩
    obtain ⟨hm1, hm12, hd1, hdin, hsum⟩ := monthDay_spec _ yday month day hyd' hmd
    have hdate : absDate A = (((y - 292277022399 : Nat) : Int), month, day, yday) := by
      simp only [absDate, hyd, hmd]
      rw [hyear]
    obtain ⟨hh, hmi, hs, hclock⟩ := absClock_spec A
    have hd31 := daysIn_le month ((y : Int) - 292277022399) hm1 hm12
    rw [hyear] at hdin hsum hD hd31
    have hfmt := formatRFC1123Z_eq t.UTC (y - 292277022399) day month yday rfl
      (by rw [hAA]; exact hdate) (by omega) hm1 hm12 (by omega)
    rw [hfmt, hAA]
    rw [parseRFC1123Z_text (absWeekday A) day month (y - 292277022399) _ _ _ (absWeekday_lt A)
      hd1 hdin (by omega) hm1 hm12 (by omega) hh hmi hs]
    rw [Date_of_calendar _ month day _ _ _ _ yday hD hm1 hm12 hd1 hsum hh hmi hs
      (by omega) (by omega)]
    congr 2
    omega

theorem Parse_Format_UTC (t : Time) (hlo : -62167219200 ≤ t.sec) (hhi : t.sec ≤ 253402300799) :
    Parse (Time.Format t.UTC) = (⟨t.sec, 0, 0⟩, none) := by
  simp only [Parse, Time.Format, parse_format_UTC t hlo hhi]

end Go.time

/-! ## The time codec -/

namespace newznab

open Go

/-- C7 (amended): for a timestamp whose instant lies in the years 0 to 9999
of UTC, the text that `Time.MarshalXML` writes is decoded by
`Time.UnmarshalXML` without error to the same instant at the precision of
the second, in UTC: the seconds since the epoch are those of the timestamp,
the nanoseconds are zero and the offset is zero, whatever the offset of the
timestamp was. -/
theorem C7_time_codec_round_trip (t t0 : newznab.Time) (start : xml.Name)
    (hlo : -62167219200 ≤ t.Time.sec) (hhi : t.Time.sec ≤ 253402300799) :
    (t.MarshalXML start).2 = none ∧
    newznab.Time.UnmarshalXML t0 ((t.MarshalXML start).1.drop 1) =
      (⟨⟨t.Time.sec, 0, 0⟩⟩, none) := by
  refine ⟨rfl, ?_⟩
  simp only [Time.MarshalXML, List.drop_succ_cons, List.drop_zero, Time.UnmarshalXML,
    xml.decodeElementString]
  have he : "" ++ time.Time.Format (time.Time.UTC t.Time) =
      time.Time.Format (time.Time.UTC t.Time) := by
    apply String.ext
    simp
  simp [he, time.Parse_Format_UTC t.Time hlo hhi]

theorem C7_time_codec_round_trip_witness :
    newznab.Time.UnmarshalXML ⟨time.Time.zero⟩
      ((newznab.Time.MarshalXML ⟨⟨1136239445, 123456789, -25200⟩⟩ ⟨"", "pubDate"⟩).1.drop 1) =
      (⟨⟨1136239445, 0, 0⟩⟩, none) :=
  (C7_time_codec_round_trip ⟨⟨1136239445, 123456789, -25200⟩⟩ ⟨time.Time.zero⟩ ⟨"", "pubDate"⟩
    (by decide) (by decide)).2

set_option maxRecDepth 100000 in
/-- A timestamp seven hours west of UTC is decoded without error to offset
zero, not to its own offset; and the texts written for the first second of
the year 10000 and for the last second before the year 0 are not decoded at
all. -/
theorem C7_counterexample :
    (newznab.Time.MarshalXML ⟨⟨1136239445, 0, -25200⟩⟩ ⟨"", "pubDate"⟩).1 =
      [.StartElement ⟨"", "pubDate"⟩, .CharData "Mon, 02 Jan 2006 22:04:05 +0000",
        .EndElement ⟨"", "pubDate"⟩] ∧
    newznab.Time.UnmarshalXML ⟨time.Time.zero⟩
      ((newznab.Time.MarshalXML ⟨⟨1136239445, 0, -25200⟩⟩ ⟨"", "pubDate"⟩).1.drop 1) =
      (⟨⟨1136239445, 0, 0⟩⟩, none) ∧
    (newznab.Time.UnmarshalXML ⟨time.Time.zero⟩
      ((newznab.Time.MarshalXML ⟨⟨1136239445, 0, -25200⟩⟩ ⟨"", "pubDate"⟩).1.drop 1)).1.Time.offset
      ≠ (⟨⟨1136239445, 0, -25200⟩⟩ : newznab.Time).Time.offset ∧
    (newznab.Time.MarshalXML ⟨⟨253402300800, 0, 0⟩⟩ ⟨"", "pubDate"⟩).1 =
      [.StartElement ⟨"", "pubDate"⟩, .CharData "Sat, 01 Jan 10000 00:00:00 +0000",
        .EndElement ⟨"", "pubDate"⟩] ∧
    (newznab.Time.UnmarshalXML ⟨time.Time.zero⟩
      ((newznab.Time.MarshalXML ⟨⟨253402300800, 0, 0⟩⟩ ⟨"", "pubDate"⟩).1.drop 1)).2 ≠ none ∧
    (newznab.Time.MarshalXML ⟨⟨-62167219201, 0, 0⟩⟩ ⟨"", "pubDate"⟩).1 =
      [.StartElement ⟨"", "pubDate"⟩, .CharData "Fri, 31 Dec -0001 23:59:59 +0000",
        .EndElement ⟨"", "pubDate"⟩] ∧
    (newznab.Time.UnmarshalXML ⟨time.Time.zero⟩
      ((newznab.Time.MarshalXML ⟨⟨-62167219201, 0, 0⟩⟩ ⟨"", "pubDate"⟩).1.drop 1)).2 ≠ none := by
  decide

/-- The bounds of the round trip are the first second of the year 0 and the
last second of the year 9999 in UTC. -/
theorem round_trip_bounds :
    time.absDate (time.Time.abs ⟨-62167219200, 0, 0⟩) = (0, 1, 1, 0) ∧
    time.absClock (time.Time.abs ⟨-62167219200, 0, 0⟩) = (0, 0, 0) ∧
    time.absDate (time.Time.abs ⟨253402300799, 0, 0⟩) = (9999, 12, 31, 364) ∧
    time.absClock (time.Time.abs ⟨253402300799, 0, 0⟩) = (23, 59, 59) := by
  decide

end newznab
